import Mathlib

/-
Verification development for the homebridge-sleepme-dockpro request
scheduling and state-reconciliation engine.

Shallow embedding of:
  - src/utils/option.ts          (Option monad with JS truthiness checks)
  - src/services/retry.ts        (RetryService: retryApiCall, handleStateMismatch)
  - src/services/polling.ts      (PollingService: interval selection, poll cycle)
  - src/apiQueueManager.ts       (ApiQueueManager: queue, device states, callbacks)

JS numbers are modelled as Int (no claim below depends on fractional or
floating-point behaviour); JS `Map` is modelled as an insertion-ordered
association list where `set` replaces in place (as JS `Map.set` keeps the
original insertion position of an existing key); `undefined` is modelled
as `Option.none`.
-/

namespace Sleepme

/-- Thermal control status values, "standby" | "active". -/
inductive TCS
  | standby
  | active
deriving DecidableEq

/-- Display temperature unit, "c" | "f". -/
inductive TempUnit
  | celsius
  | fahrenheit
deriving DecidableEq

/-- Modelled from the spec: the Control record of src/sleepme/client.ts is not
under src/. Spec section 3 describes it as "target temperature in two unit
representations, thermal control status: standby | active, display unit". -/
structure Control where
  set_temperature_c : Int
  set_temperature_f : Int
  thermal_control_status : TCS
  display_temperature_unit : TempUnit
deriving DecidableEq

/-- Modelled from the spec: the status half of a DeviceStatus response
(src/sleepme/client.ts is not under src/); the claims only use the water
temperature reading. -/
structure StatusInfo where
  water_temperature_c : Int
deriving DecidableEq

/-- Modelled from the spec: `getStatus(deviceId) -> {status, control}`
(spec section 6). -/
structure DeviceStatus where
  control : Control
  status : StatusInfo
deriving DecidableEq

/- ------------------------------------------------------------------ -/
/- src/utils/option.ts                                                -/
/- ------------------------------------------------------------------ -/

/-- JS truthiness of a value of type `α`: the branch conditions
`if (this.value)` / `if (!this.value)` in src/utils/option.ts test
truthiness, not presence. -/
class JsTruthy (α : Type) where
  truthy : α → Bool

instance : JsTruthy Int := ⟨fun n => decide (n ≠ 0)⟩

instance : JsTruthy Bool := ⟨fun b => b⟩

instance : JsTruthy String := ⟨fun s => decide (s ≠ "")⟩

instance : JsTruthy DeviceStatus := ⟨fun _ => true⟩

/-- The Option class of src/utils/option.ts: `value: T | null`. Named
JsOption to avoid clashing with the core Option type used for `null`. -/
structure JsOption (α : Type) where
  value : Option α

/-- `map` of src/utils/option.ts: `if (this.value) return new
Option(mapF(this.value)); return new Option(null);` — the guard is a JS
truthiness test on the wrapped value. -/
def JsOption.map [JsTruthy α] (mapF : α → β) : JsOption α → JsOption β
  | ⟨none⟩ => ⟨none⟩
  | ⟨some v⟩ => if JsTruthy.truthy v then ⟨some (mapF v)⟩ else ⟨none⟩

/-- `orElse` of src/utils/option.ts: `if (!this.value) return elseValue;
return this.value;` — again a JS truthiness test. -/
def JsOption.orElse [JsTruthy α] (o : JsOption α) (elseValue : α) : α :=
  match o.value with
  | none => elseValue
  | some v => if JsTruthy.truthy v then v else elseValue

/-- The TemperatureDisplayUnits onGet handler of
src/services/thermostatService.ts (initializeCharacteristics):
`new Option(deviceStatus).map(ds => ds.control.display_temperature_unit
=== 'c' ? 0 : 1).orElse(1)`. -/
def temperatureDisplayUnitsOnGet (deviceStatus : Option DeviceStatus) : Int :=
  ((JsOption.mk deviceStatus).map fun ds =>
    if ds.control.display_temperature_unit = TempUnit.celsius then 0 else 1).orElse 1

/-- The CurrentTemperature onGet handler of
src/services/thermostatService.ts: `new Option(deviceStatus).map(ds =>
ds.status.water_temperature_c).orElse(21)`. -/
def currentTemperatureOnGet (deviceStatus : Option DeviceStatus) : Int :=
  ((JsOption.mk deviceStatus).map fun ds => ds.status.water_temperature_c).orElse 21

/- ------------------------------------------------------------------ -/
/- src/services/retry.ts                                              -/
/- ------------------------------------------------------------------ -/

/-- Constant from src/types/index.ts. -/
def MAX_RETRIES : Nat := 3

/-- Constant from src/types/index.ts. -/
def MAX_STATE_MISMATCH_RETRIES : Nat := 3

/-- RetryService.retryApiCall of src/services/retry.ts. The environment
`op` gives the outcome of each (1-indexed) attempt; the real code invokes
the same closure each time, and the attempt index records how often it has
been invoked so far. On error, the code retries while
`currentAttempt <= maxRetries` with `currentAttempt + 1`; otherwise it
rethrows. The awaited backoff delay does not affect the settled value and
is not modelled. -/
def retryApiCall (op : Nat → Except ε α) (maxRetries : Nat) (currentAttempt : Nat) :
    Except ε α :=
  match op currentAttempt with
  | Except.ok a => Except.ok a
  | Except.error e =>
    if currentAttempt ≤ maxRetries then
      retryApiCall op maxRetries (currentAttempt + 1)
    else
      Except.error e
termination_by maxRetries + 1 - currentAttempt
decreasing_by omega

/-- The `{ thermal_control_status: actualState } as Control` object built
by handleStateMismatch when no currentControl is available: at runtime the
other fields are absent; the claims only inspect thermal_control_status,
so they are modelled by arbitrary fixed values. -/
def castControl (s : TCS) : Control :=
  { set_temperature_c := 0
    set_temperature_f := 0
    thermal_control_status := s
    display_temperature_unit := TempUnit.fahrenheit }

/-- The `currentControl ? { ...currentControl, thermal_control_status:
actualState } : { thermal_control_status: actualState } as Control`
expression of handleStateMismatch. -/
def overrideControl (currentControl : Option Control) (s : TCS) : Control :=
  match currentControl with
  | some c => { c with thermal_control_status := s }
  | none => castControl s

/-- RetryService.handleStateMismatch of src/services/retry.ts. The
environment `env` gives, for each retryCount value, the outcome of the
`client.setThermalControlStatus` attempt made at that retryCount:
`some r` is a response with data `r`, `none` is a transport error. The
awaited fixed delay does not affect the settled value and is not
modelled. -/
def handleStateMismatch (env : Nat → Option Control) (expectedState actualState : TCS)
    (currentControl : Option Control) (retryCount : Nat) : Control :=
  if MAX_STATE_MISMATCH_RETRIES ≤ retryCount then
    overrideControl currentControl actualState
  else
    match env retryCount with
    | some r =>
      if r.thermal_control_status = expectedState then
        r
      else
        handleStateMismatch env expectedState r.thermal_control_status currentControl
          (retryCount + 1)
    | none =>
      if retryCount + 1 < MAX_STATE_MISMATCH_RETRIES then
        handleStateMismatch env expectedState actualState currentControl (retryCount + 1)
      else
        overrideControl currentControl actualState
termination_by MAX_STATE_MISMATCH_RETRIES - retryCount
decreasing_by all_goals omega

/-- Number of `client.setThermalControlStatus` calls made by
handleStateMismatch (one per non-exhausted recursion level; the base case
at `retryCount >= MAX_STATE_MISMATCH_RETRIES` makes none). -/
def mismatchAttempts (env : Nat → Option Control) (expectedState : TCS)
    (retryCount : Nat) : Nat :=
  if MAX_STATE_MISMATCH_RETRIES ≤ retryCount then 0
  else
    match env retryCount with
    | some r =>
      if r.thermal_control_status = expectedState then 1
      else 1 + mismatchAttempts env expectedState (retryCount + 1)
    | none =>
      if retryCount + 1 < MAX_STATE_MISMATCH_RETRIES then
        1 + mismatchAttempts env expectedState (retryCount + 1)
      else 1
termination_by MAX_STATE_MISMATCH_RETRIES - retryCount
decreasing_by all_goals omega

/-- The thermal control status last actually observed over the attempts
made from `retryCount` up to (excluding) MAX_STATE_MISMATCH_RETRIES:
a response updates the observed state to its own status, a transport
error observes nothing and leaves it unchanged. -/
def lastObserved (env : Nat → Option Control) (actualState : TCS) (retryCount : Nat) :
    TCS :=
  if MAX_STATE_MISMATCH_RETRIES ≤ retryCount then actualState
  else
    match env retryCount with
    | some r => lastObserved env r.thermal_control_status (retryCount + 1)
    | none => lastObserved env actualState (retryCount + 1)
termination_by MAX_STATE_MISMATCH_RETRIES - retryCount
decreasing_by all_goals omega

/- ------------------------------------------------------------------ -/
/- src/services/polling.ts                                            -/
/- ------------------------------------------------------------------ -/

/-- Constant from src/types/index.ts. -/
def DEFAULT_ACTIVE_POLLING_INTERVAL_SECONDS : Int := 30

/-- Constant from src/types/index.ts. -/
def DEFAULT_STANDBY_POLLING_INTERVAL_MINUTES : Int := 15

/-- PollingConfig of src/services/polling.ts (both fields optional). -/
structure PollingConfig where
  activePollingIntervalSeconds : Option Int
  standbyPollingIntervalMinutes : Option Int

/-- The activePollingIntervalMs field as computed by the PollingService
constructor: floor of 5 seconds on the configured value, default
otherwise. The constructor argument `config` is itself optional. -/
def activePollingIntervalMs (config : Option PollingConfig) : Int :=
  match config.bind (fun c => c.activePollingIntervalSeconds) with
  | some s => if s < 5 then 5 * 1000 else s * 1000
  | none => DEFAULT_ACTIVE_POLLING_INTERVAL_SECONDS * 1000

/-- The standbyPollingIntervalMs field as computed by the PollingService
constructor: floor of 1 minute on the configured value, default
otherwise. -/
def standbyPollingIntervalMs (config : Option PollingConfig) : Int :=
  match config.bind (fun c => c.standbyPollingIntervalMinutes) with
  | some m => if m < 1 then 60 * 1000 else m * 60 * 1000
  | none => DEFAULT_STANDBY_POLLING_INTERVAL_MINUTES * 60 * 1000

/-- PollingService.getPollingIntervalBasedOnState. -/
def getPollingIntervalBasedOnState (config : Option PollingConfig) (isActive : Bool) :
    Int :=
  if isActive then activePollingIntervalMs config else standbyPollingIntervalMs config

/-- One firing of the timer set by PollingService.scheduleNextPoll: given
the loop's current activity flag and the outcome of the retried status
fetch (`none` = failed even after retries), returns the activity flag and
interval of the next scheduled poll. Every branch of the source callback
calls scheduleNextPoll again, so this function is total: a next poll is
always scheduled. -/
def scheduleNextPollStep (config : Option PollingConfig) (isActive : Bool)
    (fetch : Option DeviceStatus) : Bool × Int :=
  match fetch with
  | some status =>
    let currentActive := decide (status.control.thermal_control_status = TCS.active)
    if currentActive ≠ isActive then
      (currentActive, getPollingIntervalBasedOnState config currentActive)
    else
      (isActive, getPollingIntervalBasedOnState config isActive)
  | none => (isActive, getPollingIntervalBasedOnState config isActive)

/-- Concrete device status used by witnesses: display unit "c" and a water
temperature of exactly 0. -/
def sampleDS : DeviceStatus :=
  { control :=
      { set_temperature_c := 21
        set_temperature_f := 70
        thermal_control_status := TCS.standby
        display_temperature_unit := TempUnit.celsius }
    status := { water_temperature_c := 0 } }

/-- An operation that fails on attempts 1, 2 and 3 and succeeds on
attempt 4 (the scenario of C3). -/
def failThriceEnv : Nat → Except String Nat :=
  fun n => if n < 4 then Except.error "ECONNRESET" else Except.ok 42

/-- An environment in which every state-mismatch retry attempt fails with
a transport error. -/
def envAllErr : Nat → Option Control := fun _ => none

/-- Concrete device status whose thermal control status is "active". -/
def activeDS : DeviceStatus :=
  { control :=
      { set_temperature_c := 22
        set_temperature_f := 72
        thermal_control_status := TCS.active
        display_temperature_unit := TempUnit.fahrenheit }
    status := { water_temperature_c := 20 } }

/- ------------------------------------------------------------------ -/
/- src/apiQueueManager.ts                                             -/
/- ------------------------------------------------------------------ -/

/-- The operation kinds of a QueuedRequest. -/
inductive Operation
  | setTemperatureFahrenheit
  | setTemperatureCelsius
  | setThermalControlStatus
  | getDeviceStatus
deriving DecidableEq

/-- The literal name of an operation, as it appears in the queue key. -/
def opName : Operation → String
  | Operation.setTemperatureFahrenheit => "setTemperatureFahrenheit"
  | Operation.setTemperatureCelsius => "setTemperatureCelsius"
  | Operation.setThermalControlStatus => "setThermalControlStatus"
  | Operation.getDeviceStatus => "getDeviceStatus"

/-- ApiQueueManager.getQueueKey: the template string `deviceId:operation`. -/
def getQueueKey (deviceId : String) (operation : Operation) : String :=
  deviceId ++ ":" ++ opName operation

/-- A value appearing in a request's `params` array: the operations take
either a number or a thermal control status string. -/
inductive ParamV
  | num (n : Int)
  | status (s : TCS)
deriving DecidableEq

/-- Reading a param as a number (`params[0]` at a number position; a
non-number yields undefined). -/
def ParamV.asNum : ParamV → Option Int
  | ParamV.num n => some n
  | ParamV.status _ => none

/-- Reading a param as a thermal control status. -/
def ParamV.asStatus : ParamV → Option TCS
  | ParamV.status s => some s
  | ParamV.num _ => none

/-- QueuedRequest of src/apiQueueManager.ts. -/
structure QueuedRequest where
  deviceId : String
  operation : Operation
  params : List ParamV
  timestamp : Int
  retryCount : Nat
deriving DecidableEq

/-- A `Partial<Control>` value: each field present (defined) or not. The
pendingState of a DeviceState has this shape. -/
structure ControlPatch where
  set_temperature_c : Option Int
  set_temperature_f : Option Int
  thermal_control_status : Option TCS
  display_temperature_unit : Option TempUnit
deriving DecidableEq

/-- Spreading a full Control into a patch (`{ ...lastSuccessfulState }`):
every field becomes present. -/
def Control.toPatch (c : Control) : ControlPatch :=
  { set_temperature_c := some c.set_temperature_c
    set_temperature_f := some c.set_temperature_f
    thermal_control_status := some c.thermal_control_status
    display_temperature_unit := some c.display_temperature_unit }

/-- The empty patch `{}`. -/
def emptyPatch : ControlPatch :=
  { set_temperature_c := none
    set_temperature_f := none
    thermal_control_status := none
    display_temperature_unit := none }

/-- The lastError record of a DeviceState. -/
structure ErrorRecord where
  message : String
  code : Int
  timestamp : Int
deriving DecidableEq

/-- DeviceState of src/apiQueueManager.ts. -/
structure DeviceState where
  lastSuccessfulState : Option Control
  pendingState : Option ControlPatch
  lastError : Option ErrorRecord
deriving DecidableEq

/-- The fresh `{}` device state. -/
def emptyDeviceState : DeviceState :=
  { lastSuccessfulState := none, pendingState := none, lastError := none }

/-- An error thrown by a client call: `error.response?.data?.message`,
`error.message` and `error.response?.status` are the parts the manager
reads. -/
structure ApiError where
  responseMessage : Option String
  message : String
  responseStatus : Option Int
deriving DecidableEq

/-- `error.response?.data?.message || error.message || 'Unknown error'`
(JS `||` takes the first truthy operand; an empty string is falsy). -/
def errMessageOf (e : ApiError) : String :=
  match e.responseMessage with
  | some m => if m ≠ "" then m else (if e.message ≠ "" then e.message else "Unknown error")
  | none => if e.message ≠ "" then e.message else "Unknown error"

/-- `error.response?.status || 0`: an absent status yields 0, and a falsy
present status can only be 0 itself, so this is exactly `getD 0`. -/
def errStatusOf (e : ApiError) : Int :=
  e.responseStatus.getD 0

/-- The data of a successful client response: a Control for the three
set-operations, a DeviceStatus for getDeviceStatus. The `'control' in
data` test of handleSuccess is true exactly for a DeviceStatus. -/
inductive RespData
  | ctrl (c : Control)
  | devStatus (d : DeviceStatus)
deriving DecidableEq

/-- Reading a response as a Control (the shape the control operations
return). -/
def RespData.asControl : RespData → Option Control
  | RespData.ctrl c => some c
  | RespData.devStatus _ => none

/-- QueuedRequestResult of src/apiQueueManager.ts. -/
structure QueuedRequestResult where
  success : Bool
  data : Option RespData
  error : Option ApiError
  statusCode : Option Int
deriving DecidableEq

/-- One callback invocation: callbacks are modelled by opaque numeric
identities; an event records that the callback with that identity was
invoked with the given result. -/
structure CallbackEvent where
  cbId : Nat
  result : QueuedRequestResult
deriving DecidableEq

/-- Whether a response's shape matches the client's return type for an
operation (the TS types make this always true). -/
def dataMatches : Operation → RespData → Bool
  | Operation.getDeviceStatus, RespData.devStatus _ => true
  | Operation.getDeviceStatus, RespData.ctrl _ => false
  | _, RespData.ctrl _ => true
  | _, RespData.devStatus _ => false

/-- The kind of the single pending timeout (`scheduledTimeout`): either a
queue-processing timer or a consistency-check timer. -/
inductive TimerKind
  | processing
  | consistency
deriving DecidableEq

/-- A pending timeout: absolute fire time and kind. -/
structure Timer where
  fireTime : Int
  kind : TimerKind
deriving DecidableEq

/-- The constructor configuration of ApiQueueManager. -/
structure Config where
  minRequestInterval : Int
  maxRetries : Nat
  retryBackoff : Int
  consistencyCheckInterval : Int
deriving DecidableEq

/-- The constructor defaults: 1000 ms spacing, 3 retries, 5000 ms backoff
base, 30000 ms consistency interval. -/
def defaultConfig : Config :=
  { minRequestInterval := 1000
    maxRetries := 3
    retryBackoff := 5000
    consistencyCheckInterval := 30000 }

/-- JS `Map.get`: the value stored under a key. -/
def mapGet (m : List (String × β)) (k : String) : Option β :=
  match m with
  | [] => none
  | (k1, v1) :: rest => if k1 = k then some v1 else mapGet rest k

/-- JS `Map.set`: replaces the value of an existing key in place (keeping
its insertion position, as JS Map does), appends a new key at the end. -/
def mapSet (m : List (String × β)) (k : String) (v : β) : List (String × β) :=
  match m with
  | [] => [(k, v)]
  | (k1, v1) :: rest => if k1 = k then (k, v) :: rest else (k1, v1) :: mapSet rest k v

/-- JS `Map.delete`: removes the entry of the key (the first occurrence;
keys are unique in every reachable state). -/
def mapDelete (m : List (String × β)) (k : String) : List (String × β) :=
  match m with
  | [] => []
  | (k1, v1) :: rest => if k1 = k then rest else (k1, v1) :: mapDelete rest k

/-- JS `Map.has`. -/
def mapHas (m : List (String × β)) (k : String) : Bool :=
  (mapGet m k).isSome

/-- The full state of one ApiQueueManager instance, together with the
model's current time, the single pending timeout, the in-flight request
(between dispatch and completion of the awaited client call), the list of
dispatch events (dispatch start time and dispatched request, newest
first), and the log of callback invocations. -/
structure QMState where
  time : Int
  queue : List (String × QueuedRequest)
  deviceStates : List (String × DeviceState)
  callbacks : List (String × List Nat)
  processing : Bool
  lastProcessTime : Int
  scheduled : Option Timer
  inFlight : Option QueuedRequest
  dispatches : List (Int × QueuedRequest)
  cbLog : List CallbackEvent
deriving DecidableEq

/-- The state of a freshly constructed ApiQueueManager
(`lastProcessTime = 0`, empty maps, nothing scheduled). -/
def initState : QMState :=
  { time := 0
    queue := []
    deviceStates := []
    callbacks := []
    processing := false
    lastProcessTime := 0
    scheduled := none
    inFlight := none
    dispatches := []
    cbLog := [] }

/-- ApiQueueManager.updatePendingState: ensures a device state exists,
then merges the operation's parameter as a patch over
`pendingState || lastSuccessfulState || {}`. -/
def updatePendingState (states : List (String × DeviceState)) (deviceId : String)
    (operation : Operation) (params : List ParamV) : List (String × DeviceState) :=
  let states1 := if mapHas states deviceId then states
    else mapSet states deviceId emptyDeviceState
  match mapGet states1 deviceId with
  | none => states1
  | some ds =>
    let base := ds.pendingState.getD ((ds.lastSuccessfulState.map Control.toPatch).getD
      emptyPatch)
    let newPending : Option ControlPatch :=
      match operation with
      | Operation.setTemperatureFahrenheit =>
        some { base with set_temperature_f := params.head?.bind ParamV.asNum }
      | Operation.setTemperatureCelsius =>
        some { base with set_temperature_c := params.head?.bind ParamV.asNum }
      | Operation.setThermalControlStatus =>
        some { base with thermal_control_status := params.head?.bind ParamV.asStatus }
      | Operation.getDeviceStatus => ds.pendingState
    mapSet states1 deviceId { ds with pendingState := newPending }

/-- ApiQueueManager.statesAreDifferent: for each key of pendingState, a
defined value that differs from the corresponding apiState field makes the
states different. -/
def statesAreDifferent (apiState : Control) (pendingState : ControlPatch) : Bool :=
  (match pendingState.set_temperature_c with
   | some v => decide (apiState.set_temperature_c ≠ v)
   | none => false)
  || (match pendingState.set_temperature_f with
   | some v => decide (apiState.set_temperature_f ≠ v)
   | none => false)
  || (match pendingState.thermal_control_status with
   | some v => decide (apiState.thermal_control_status ≠ v)
   | none => false)
  || (match pendingState.display_temperature_unit with
   | some v => decide (apiState.display_temperature_unit ≠ v)
   | none => false)

/-- The delay computed by ApiQueueManager.scheduleProcessing:
`Math.max(0, minRequestInterval - (now - lastProcessTime))`. -/
def fireDelay (minRequestInterval now lastProcessTime : Int) : Int :=
  max 0 (minRequestInterval - (now - lastProcessTime))

/-- ApiQueueManager.scheduleProcessing: does nothing when a timeout is
already pending, otherwise schedules queue processing after the rate-limit
delay. -/
def scheduleProcessing (cfg : Config) (s : QMState) (now : Int) : QMState :=
  match s.scheduled with
  | some _ => s
  | none =>
    { s with
      scheduled := some
        { fireTime := now + fireDelay cfg.minRequestInterval now s.lastProcessTime
          kind := TimerKind.processing } }

/-- ApiQueueManager.enqueue: stores the callback (appending to the key's
list), updates the pending state for control operations, replaces the
queue entry of the key with a fresh request (retryCount 0, timestamp now),
and schedules processing. -/
def enqueueCore (cfg : Config) (s : QMState) (now : Int) (deviceId : String)
    (operation : Operation) (params : List ParamV) (callback : Option Nat) : QMState :=
  let key := getQueueKey deviceId operation
  let request : QueuedRequest :=
    { deviceId := deviceId
      operation := operation
      params := params
      timestamp := now
      retryCount := 0 }
  let cbs := match callback with
    | some cb => mapSet s.callbacks key ((mapGet s.callbacks key).getD [] ++ [cb])
    | none => s.callbacks
  let states := if operation ≠ Operation.getDeviceStatus
    then updatePendingState s.deviceStates deviceId operation params
    else s.deviceStates
  scheduleProcessing cfg
    { s with
      callbacks := cbs
      deviceStates := states
      queue := mapSet s.queue key request } now

/-- ApiQueueManager.reapplyPendingState: re-enqueues setThermalControlStatus
when the pending thermal_control_status is truthy (every present status
string is), and setTemperatureFahrenheit when the pending set_temperature_f
is truthy (present and nonzero). No other pending field is re-applied. -/
def reapplyPendingState (cfg : Config) (s : QMState) (now : Int) (deviceId : String)
    (pendingState : ControlPatch) : QMState :=
  let s1 := match pendingState.thermal_control_status with
    | some st => enqueueCore cfg s now deviceId Operation.setThermalControlStatus
        [ParamV.status st] none
    | none => s
  match pendingState.set_temperature_f with
  | some v =>
    if v ≠ 0 then
      enqueueCore cfg s1 now deviceId Operation.setTemperatureFahrenheit
        [ParamV.num v] none
    else s1
  | none => s1

/-- The `if (!this.deviceStates.has(id)) this.deviceStates.set(id, {})`
idiom used by handleSuccess and handleError. -/
def ensureDeviceState (states : List (String × DeviceState)) (deviceId : String) :
    List (String × DeviceState) :=
  if mapHas states deviceId then states else mapSet states deviceId emptyDeviceState

/-- The device-state update phase of ApiQueueManager.handleSuccess: for
control operations record the response as lastSuccessfulState and clear
pendingState and lastError; for getDeviceStatus with a pending state
either re-apply on drift or promote the fetched control and clear
pending. -/
def handleSuccessState (cfg : Config) (s : QMState) (now : Int)
    (request : QueuedRequest) (data : RespData) : QMState :=
  if request.operation ≠ Operation.getDeviceStatus then
    let states := ensureDeviceState s.deviceStates request.deviceId
    let states2 := match mapGet states request.deviceId with
      | some ds => mapSet states request.deviceId
          { ds with
            lastSuccessfulState := data.asControl
            pendingState := none
            lastError := none }
      | none => states
    { s with deviceStates := states2 }
  else
    match data with
    | RespData.devStatus d =>
      match mapGet s.deviceStates request.deviceId with
      | some ds =>
        match ds.pendingState with
        | some pendingControl =>
          if statesAreDifferent d.control pendingControl then
            reapplyPendingState cfg s now request.deviceId pendingControl
          else
            { s with
              deviceStates := mapSet s.deviceStates request.deviceId
                { ds with
                  lastSuccessfulState := some d.control
                  pendingState := none } }
        | none => s
      | none => s
    | RespData.ctrl _ => s

/-- ApiQueueManager.handleSuccess: the device-state update above, then the
single success result is fanned out to every callback registered for the
request's key and the registration is cleared. Returns the new state and
the callback invocations performed. -/
def handleSuccess (cfg : Config) (s : QMState) (now : Int) (request : QueuedRequest)
    (data : RespData) (statusCode : Int) : QMState × List CallbackEvent :=
  let s1 := handleSuccessState cfg s now request data
  let key := getQueueKey request.deviceId request.operation
  let cbs := (mapGet s1.callbacks key).getD []
  let events := cbs.map fun id => CallbackEvent.mk id
    { success := true, data := some data, error := none, statusCode := some statusCode }
  ({ s1 with
      callbacks := mapDelete s1.callbacks key
      cbLog := s1.cbLog ++ events },
   events)

/-- ApiQueueManager.handleError: records lastError; below maxRetries it
re-enqueues the request under the same key with retryCount + 1 and a
timestamp pushed `retryBackoff * (retryCount + 1)` into the future and
invokes no callback; at maxRetries it fans a failure result out to every
registered callback, clears the registration and does not re-enqueue. -/
def handleError (cfg : Config) (s : QMState) (now : Int) (request : QueuedRequest)
    (error : ApiError) : QMState × List CallbackEvent :=
  let statusCode := errStatusOf error
  let states := ensureDeviceState s.deviceStates request.deviceId
  let states2 := match mapGet states request.deviceId with
    | some ds => mapSet states request.deviceId
        { ds with
          lastError := some
            { message := errMessageOf error
              code := statusCode
              timestamp := now } }
    | none => states
  if request.retryCount < cfg.maxRetries then
    let backoffTime := cfg.retryBackoff * ((request.retryCount : Int) + 1)
    let retryRequest :=
      { request with
        retryCount := request.retryCount + 1
        timestamp := now + backoffTime }
    ({ s with
        deviceStates := states2
        queue := mapSet s.queue (getQueueKey request.deviceId request.operation)
          retryRequest }, [])
  else
    let key := getQueueKey request.deviceId request.operation
    let cbs := (mapGet s.callbacks key).getD []
    let events := cbs.map fun id => CallbackEvent.mk id
      { success := false, data := none, error := some error,
        statusCode := some statusCode }
    ({ s with
        deviceStates := states2
        callbacks := mapDelete s.callbacks key
        cbLog := s.cbLog ++ events }, events)

/-- The oldest entry of the queue: `[...entries].sort((a, b) =>
a.timestamp - b.timestamp)[0]` with a stable sort keeps, among minimal
timestamps, the one inserted first. -/
def selectOldest (m : List (String × QueuedRequest)) :
    Option (String × QueuedRequest) :=
  match m with
  | [] => none
  | e :: rest =>
    match selectOldest rest with
    | none => some e
    | some e2 => if e2.2.timestamp < e.2.timestamp then some e2 else some e

/-- The synchronous head of ApiQueueManager.processQueue: bail out when
already processing or the queue is empty; otherwise mark processing, stamp
lastProcessTime, record the dispatch, remove the oldest request from the
queue and put it in flight. -/
def processQueueStart (s : QMState) (now : Int) : QMState :=
  if s.processing || s.queue.isEmpty then s
  else
    match selectOldest s.queue with
    | none => s
    | some (key, request) =>
      { s with
        processing := true
        lastProcessTime := now
        dispatches := (now, request) :: s.dispatches
        queue := mapDelete s.queue key
        inFlight := some request }

/-- ApiQueueManager.scheduleConsistencyCheck: clears any pending timeout,
then (only when device states exist) schedules a consistency check after
the fixed interval. -/
def scheduleConsistencyCheck (cfg : Config) (s : QMState) (now : Int) : QMState :=
  let s1 := { s with scheduled := none }
  if s1.deviceStates.isEmpty then s1
  else
    { s1 with
      scheduled := some
        { fireTime := now + cfg.consistencyCheckInterval
          kind := TimerKind.consistency } }

/-- The finally block of ApiQueueManager.processQueue: with requests still
queued, schedule the next processing; with an empty queue, schedule a
consistency check. -/
def finallyStep (cfg : Config) (s : QMState) (now : Int) : QMState :=
  if s.queue.isEmpty then scheduleConsistencyCheck cfg s now
  else scheduleProcessing cfg s now

/-- Firing of the processing timeout: the callback nulls scheduledTimeout
and calls processQueue, whose synchronous head runs at the fire time. -/
def fireProcessingStep (s : QMState) (tf : Int) : QMState :=
  processQueueStart { s with time := tf, scheduled := none } tf

/-- ApiQueueManager.performConsistencyCheck: enqueue a status check for
every device whose state has a pendingState. -/
def performConsistencyCheck (cfg : Config) (s : QMState) (now : Int) : QMState :=
  (s.deviceStates.filter fun e => e.2.pendingState.isSome).foldl
    (fun st e => enqueueCore cfg st now e.1 Operation.getDeviceStatus [] none) s

/-- Firing of the consistency-check timeout. -/
def fireConsistencyStep (cfg : Config) (s : QMState) (tf : Int) : QMState :=
  performConsistencyCheck cfg { s with time := tf, scheduled := none } tf

/-- Completion of the awaited client call with a successful response:
handleSuccess runs, then the finally block clears the processing flag and
schedules follow-up work. -/
def completeSuccess (cfg : Config) (s : QMState) (now : Int) (request : QueuedRequest)
    (data : RespData) (statusCode : Int) : QMState :=
  let hs := handleSuccess cfg { s with time := now } now request data statusCode
  finallyStep cfg { hs.1 with processing := false, inFlight := none } now

/-- Completion of the awaited client call with an error: handleError runs,
then the finally block clears the processing flag and schedules follow-up
work. -/
def completeError (cfg : Config) (s : QMState) (now : Int) (request : QueuedRequest)
    (error : ApiError) : QMState :=
  let he := handleError cfg { s with time := now } now request error
  finallyStep cfg { he.1 with processing := false, inFlight := none } now

/-- No pending timeout is due strictly before `now` (a timer that is due
fires before later work runs, so time never advances past a pending fire
time). -/
def timersNotDue (s : QMState) (now : Int) : Bool :=
  match s.scheduled with
  | none => true
  | some t => decide (now ≤ t.fireTime)

/-- The event-level semantics of one ApiQueueManager instance: callers may
enqueue at any time respecting time monotonicity; pending timeouts fire at
their fire time; an in-flight client call completes at any later time with
a well-typed response or an error. -/
inductive Step (cfg : Config) : QMState → QMState → Prop
  | enq (s : QMState) (now : Int) (deviceId : String) (operation : Operation)
      (params : List ParamV) (callback : Option Nat)
      (htime : s.time ≤ now) (hdue : timersNotDue s now = true) :
      Step cfg s (enqueueCore cfg { s with time := now } now deviceId operation params
        callback)
  | fireProc (s : QMState) (tf : Int)
      (hsch : s.scheduled = some { fireTime := tf, kind := TimerKind.processing }) :
      Step cfg s (fireProcessingStep s tf)
  | fireCons (s : QMState) (tf : Int)
      (hsch : s.scheduled = some { fireTime := tf, kind := TimerKind.consistency }) :
      Step cfg s (fireConsistencyStep cfg s tf)
  | doneOk (s : QMState) (now : Int) (request : QueuedRequest) (data : RespData)
      (statusCode : Int)
      (hin : s.inFlight = some request) (htime : s.time ≤ now)
      (hdue : timersNotDue s now = true)
      (hshape : dataMatches request.operation data = true) :
      Step cfg s (completeSuccess cfg s now request data statusCode)
  | doneErr (s : QMState) (now : Int) (request : QueuedRequest) (error : ApiError)
      (hin : s.inFlight = some request) (htime : s.time ≤ now)
      (hdue : timersNotDue s now = true) :
      Step cfg s (completeError cfg s now request error)

/-- The reachable states of an ApiQueueManager instance. -/
inductive Reach (cfg : Config) : QMState → Prop
  | init : Reach cfg initState
  | step {s t : QMState} (hs : Reach cfg s) (hstep : Step cfg s t) : Reach cfg t

/-- A sequence of enqueue calls to the same (deviceId, operation) key:
each element gives the call's time, params and optional callback. -/
def applyEnqueues (cfg : Config) (s : QMState) (deviceId : String)
    (operation : Operation) (batch : List (Int × List ParamV × Option Nat)) : QMState :=
  batch.foldl (fun st e => enqueueCore cfg st e.1 deviceId operation e.2.1 e.2.2) s

/-- The key-uniqueness invariant of the JS Maps: queue keys are distinct,
each queue entry is stored under the key derived from its own deviceId and
operation, and callback keys are distinct. -/
def WF (s : QMState) : Prop :=
  (s.queue.map Prod.fst).Nodup
  ∧ (∀ e ∈ s.queue, e.1 = getQueueKey e.2.deviceId e.2.operation)
  ∧ (s.callbacks.map Prod.fst).Nodup

/-- The timing invariant of the rate limiter: recorded dispatch start
times (newest first) are pairwise separated by minRequestInterval and
bounded by lastProcessTime, lastProcessTime never exceeds the current
time, and a pending timeout never fires in the past nor (for a processing
timer) before lastProcessTime + minRequestInterval. -/
structure Inv (cfg : Config) (s : QMState) : Prop where
  pairwise : s.dispatches.Pairwise (fun a b => b.1 + cfg.minRequestInterval ≤ a.1)
  boundedByLast : ∀ e ∈ s.dispatches, e.1 ≤ s.lastProcessTime
  lastLeTime : s.lastProcessTime ≤ s.time
  timerTime : ∀ t, s.scheduled = some t → s.time ≤ t.fireTime
  timerSep : ∀ t, s.scheduled = some t → t.kind = TimerKind.processing →
    s.lastProcessTime + cfg.minRequestInterval ≤ t.fireTime

/- ------------------------------------------------------------------ -/
/- Concrete inputs used by witnesses and counterexamples              -/
/- ------------------------------------------------------------------ -/

/-- A control state previously confirmed by the API (85 degrees F). -/
def c85 : Control := ⟨29, 85, TCS.standby, TempUnit.fahrenheit⟩

/-- A device-state map whose only entry has `c85` as lastSuccessfulState
and no pending state. -/
def statesWithLast : List (String × DeviceState) := [("dev1", ⟨some c85, none, none⟩)]

/-- The pending patch produced by enqueueing setThermalControlStatus
"active" on top of `statesWithLast`: the patch is seeded from the full
lastSuccessfulState, so it also contains fields the caller never set. -/
def seededPatch : ControlPatch :=
  ⟨some 29, some 85, some TCS.active, some TempUnit.fahrenheit⟩

/-- A fetched control state that agrees with the caller's explicitly set
thermal_control_status but differs on set_temperature_f (a field the
caller never set in this scenario). -/
def apiDrifted : Control := ⟨29, 90, TCS.active, TempUnit.fahrenheit⟩

/-- A pending patch whose only defined field is set_temperature_c. -/
def celsiusOnlyPatch : ControlPatch := ⟨some 20, none, none, none⟩

/-- A fetched control state that differs from `celsiusOnlyPatch` on
set_temperature_c. -/
def apiC18 : Control := ⟨18, 64, TCS.standby, TempUnit.celsius⟩

/-- A pending patch with thermal_control_status and a nonzero
set_temperature_f defined. -/
def wPatch : ControlPatch := ⟨none, some 85, some TCS.active, none⟩

/-- A queued setThermalControlStatus request with retryCount 0. -/
def reqW : QueuedRequest :=
  ⟨"dev1", Operation.setThermalControlStatus, [ParamV.status TCS.active], 5, 0⟩

/-- The same request after exhausting the 3 queue-level retries. -/
def reqExhausted : QueuedRequest :=
  ⟨"dev1", Operation.setThermalControlStatus, [ParamV.status TCS.active], 5, 3⟩

/-- A rate-limit transport error (HTTP 429). -/
def errW : ApiError :=
  ⟨some "Too Many Requests", "Request failed with status code 429", some 429⟩

/-- A manager state with two callbacks registered for the
(dev1, setThermalControlStatus) key. -/
def cbState : QMState :=
  { initState with
    callbacks := [(getQueueKey "dev1" Operation.setThermalControlStatus, [3, 4])] }

/-- The control returned by a successful set operation. -/
def ctrlResp : Control := ⟨22, 72, TCS.active, TempUnit.fahrenheit⟩

/-- Reachable state after one enqueue (with callback 7) at time 0. -/
def wEnq1 : QMState :=
  enqueueCore defaultConfig { initState with time := 0 } 0 "dev1"
    Operation.setThermalControlStatus [ParamV.status TCS.active] (some 7)

/-- Trace state: one getDeviceStatus enqueue for dev2 at time 0. -/
def w1 : QMState :=
  enqueueCore defaultConfig { initState with time := 0 } 0 "dev2"
    Operation.getDeviceStatus [] none

/-- Trace state: the processing timer fires at 1000 and dispatches. -/
def w2 : QMState := fireProcessingStep w1 1000

/-- The request dispatched in `w2`. -/
def w2req : QueuedRequest := ⟨"dev2", Operation.getDeviceStatus, [], 0, 0⟩

/-- Trace state: the in-flight status fetch completes at 1100. -/
def w3 : QMState :=
  completeSuccess defaultConfig w2 1100 w2req (RespData.devStatus activeDS) 200

/-- Trace state: a second enqueue at 1100. -/
def w4 : QMState :=
  enqueueCore defaultConfig { w3 with time := 1100 } 1100 "dev2"
    Operation.getDeviceStatus [] none

/-- Trace state: the next processing timer fires at 2000 (not at 1100:
the rate limiter delays it to lastProcessTime + minRequestInterval). -/
def w5 : QMState := fireProcessingStep w4 2000

/- ------------------------------------------------------------------ -/
/- Theorems: C10 (Option monad truthiness), C3 (retry boundary),      -/
/- C7 (state mismatch resolution), C9 (poll cycle)                    -/
/- ------------------------------------------------------------------ -/

/-- C10: for every falsy wrapped value, Option.map returns an empty Option
and Option.orElse returns the fallback; consequently the
TemperatureDisplayUnits getter returns 1 even when
display_temperature_unit is "c" (which maps to 0), and a water temperature
of exactly 0 reads back as the fallback 21. -/
theorem claim_C10 :
    (∀ (α β : Type) [JsTruthy α] (v : α) (f : α → β),
      JsTruthy.truthy v = false → (JsOption.mk (some v)).map f = JsOption.mk none)
    ∧ (∀ (α : Type) [JsTruthy α] (v fallback : α),
      JsTruthy.truthy v = false → (JsOption.mk (some v)).orElse fallback = fallback)
    ∧ (∀ ds : DeviceStatus, ds.control.display_temperature_unit = TempUnit.celsius →
        temperatureDisplayUnitsOnGet (some ds) = 1)
    ∧ (∀ ds : DeviceStatus, ds.status.water_temperature_c = 0 →
        currentTemperatureOnGet (some ds) = 21) := by
  refine ⟨?_, ?_, ?_, ?_⟩
  · intro α β inst v f h
    simp [JsOption.map, h]
  · intro α inst v fallback h
    simp [JsOption.orElse, h]
  · intro ds h
    simp [temperatureDisplayUnitsOnGet, JsOption.map, JsOption.orElse, JsTruthy.truthy, h]
  · intro ds h
    simp [currentTemperatureOnGet, JsOption.map, JsOption.orElse, JsTruthy.truthy, h]

/-- Witness for C10 at concrete inputs. -/
theorem claim_C10_witness :
    (JsOption.mk (some (0 : Int))).map (fun n => n + 1) = JsOption.mk none
    ∧ (JsOption.mk (some (0 : Int))).orElse 5 = 5
    ∧ temperatureDisplayUnitsOnGet (some sampleDS) = 1
    ∧ currentTemperatureOnGet (some sampleDS) = 21 :=
  ⟨claim_C10.1 Int Int 0 (fun n => n + 1) (by decide),
   claim_C10.2.1 Int 0 5 (by decide),
   claim_C10.2.2.1 sampleDS rfl,
   claim_C10.2.2.2 sampleDS rfl⟩

/-- Counterexample to C3 as stated: with maxRetries = 3, an operation that
fails on its first 3 attempts and succeeds on attempt 4 surfaces SUCCESS
to the caller, not failure — retryApiCall retries while
currentAttempt <= maxRetries, so attempts 2, 3 and 4 are retries 1, 2 and
3, and the success of attempt 4 is returned. -/
theorem claim_C3_counterexample :
    (failThriceEnv 1).isOk = false
    ∧ (failThriceEnv 2).isOk = false
    ∧ (failThriceEnv 3).isOk = false
    ∧ failThriceEnv 4 = Except.ok 42
    ∧ retryApiCall failThriceEnv 3 1 = Except.ok 42 := by
  refine ⟨by decide, by decide, by decide, rfl, ?_⟩
  rw [retryApiCall, retryApiCall, retryApiCall, retryApiCall]
  simp [failThriceEnv]

/-- Helper: when every attempt from k through maxRetries fails,
retryApiCall from attempt k settles to the outcome of attempt
maxRetries + 1 when that attempt succeeds. -/
theorem retryApiCall_skip_failures {ε α : Type} (op : Nat → Except ε α)
    (maxRetries : Nat) (a : α) (hsucc : op (maxRetries + 1) = Except.ok a) :
    ∀ m k, maxRetries + 1 - k = m → k ≤ maxRetries + 1 →
      (∀ n, k ≤ n → n ≤ maxRetries → (op n).isOk = false) →
      retryApiCall op maxRetries k = Except.ok a := by
  intro m
  induction m with
  | zero =>
    intro k hm hk _
    have hk2 : k = maxRetries + 1 := by omega
    subst hk2
    rw [retryApiCall, hsucc]
  | succ m ih =>
    intro k hm hk hfail
    rw [retryApiCall]
    cases hop : op k with
    | ok b =>
      have hbad := hfail k le_rfl (by omega)
      rw [hop] at hbad
      simp [Except.isOk, Except.toBool] at hbad
    | error e =>
      have hle : k ≤ maxRetries := by omega
      simp only [if_pos hle]
      exact ih (k + 1) (by omega) (by omega) (fun n hn hn2 => hfail n (by omega) hn2)

/-- C3 amended: if an operation fails on each of attempts 1 through
maxRetries and succeeds on attempt maxRetries + 1, then retryApiCall
returns that success to the caller — attempt 1 is not a retry, and the
code performs up to maxRetries retries after it, so attempt
maxRetries + 1 (the 4th attempt when maxRetries = 3) is executed and its
success is surfaced. -/
theorem claim_C3 {ε α : Type} (op : Nat → Except ε α) (maxRetries : Nat) (a : α)
    (hfail : ∀ n, 1 ≤ n → n ≤ maxRetries → (op n).isOk = false)
    (hsucc : op (maxRetries + 1) = Except.ok a) :
    retryApiCall op maxRetries 1 = Except.ok a :=
  retryApiCall_skip_failures op maxRetries a hsucc (maxRetries + 1 - 1) 1 rfl
    (by omega) (fun n hn hn2 => hfail n hn hn2)

/-- Witness for C3 at the concrete scenario of the claim. -/
theorem claim_C3_witness : retryApiCall failThriceEnv 3 1 = Except.ok 42 :=
  claim_C3 failThriceEnv 3 42
    (by
      intro n h1 h2
      interval_cases n <;> decide)
    rfl

/-- Helper: the number of attempts made by handleStateMismatch from a
given retryCount is bounded by the remaining retry budget. -/
theorem mismatchAttempts_le_budget (env : Nat → Option Control) (expectedState : TCS) :
    ∀ m retryCount, MAX_STATE_MISMATCH_RETRIES - retryCount = m →
      mismatchAttempts env expectedState retryCount
        ≤ MAX_STATE_MISMATCH_RETRIES - retryCount := by
  intro m
  induction m with
  | zero =>
    intro rc hm
    have hge : MAX_STATE_MISMATCH_RETRIES ≤ rc := by omega
    rw [mismatchAttempts, if_pos hge]
    exact Nat.zero_le _
  | succ m ih =>
    intro rc hm
    have hlt : ¬ MAX_STATE_MISMATCH_RETRIES ≤ rc := by omega
    rw [mismatchAttempts, if_neg hlt]
    have hrec := ih (rc + 1) (by omega)
    cases henv : env rc with
    | some r =>
      by_cases hmatch : r.thermal_control_status = expectedState
      · simp only [if_pos hmatch]
        omega
      · simp only [if_neg hmatch]
        omega
    | none =>
      by_cases hmore : rc + 1 < MAX_STATE_MISMATCH_RETRIES
      · simp only [if_pos hmore]
        omega
      · simp only [if_neg hmore]
        omega

/-- Helper: the control returned by the overriding expression always
carries the given thermal control status. -/
theorem overrideControl_status (currentControl : Option Control) (s : TCS) :
    (overrideControl currentControl s).thermal_control_status = s := by
  cases currentControl <;> rfl

/-- Helper: when no attempt from retryCount onwards returns the expected
state, handleStateMismatch returns a control carrying the last
actually-observed state. -/
theorem handleStateMismatch_exhausted (env : Nat → Option Control)
    (expectedState : TCS) (currentControl : Option Control) :
    ∀ m retryCount actualState, MAX_STATE_MISMATCH_RETRIES - retryCount = m →
      (∀ i r, retryCount ≤ i → i < MAX_STATE_MISMATCH_RETRIES → env i = some r →
        r.thermal_control_status ≠ expectedState) →
      (handleStateMismatch env expectedState actualState currentControl
        retryCount).thermal_control_status = lastObserved env actualState retryCount := by
  intro m
  induction m with
  | zero =>
    intro rc actual hm _
    have hge : MAX_STATE_MISMATCH_RETRIES ≤ rc := by omega
    rw [handleStateMismatch, if_pos hge, lastObserved, if_pos hge,
      overrideControl_status]
  | succ m ih =>
    intro rc actual hm hnomatch
    have hlt : ¬ MAX_STATE_MISMATCH_RETRIES ≤ rc := by omega
    rw [handleStateMismatch, if_neg hlt, lastObserved, if_neg hlt]
    cases henv : env rc with
    | some r =>
      have hne := hnomatch rc r le_rfl (by omega) henv
      simp only [if_neg hne]
      exact ih (rc + 1) r.thermal_control_status (by omega)
        (fun i s hi hi2 hs => hnomatch i s (by omega) hi2 hs)
    | none =>
      by_cases hmore : rc + 1 < MAX_STATE_MISMATCH_RETRIES
      · simp only [if_pos hmore]
        exact ih (rc + 1) actual (by omega)
          (fun i s hi hi2 hs => hnomatch i s (by omega) hi2 hs)
      · simp only [if_neg hmore]
        have hge2 : MAX_STATE_MISMATCH_RETRIES ≤ rc + 1 := by omega
        rw [lastObserved, if_pos hge2, overrideControl_status]

/-- C7: handleStateMismatch makes at most MAX_STATE_MISMATCH_RETRIES
attempts (so, counting the caller's initial set attempt, it terminates
within maxMismatchRetries + 1 attempts); a transport error at a
non-exhausted retryCount consumes a retry exactly like a mismatch does
(the result from retryCount equals the result from retryCount + 1 with
the same observed state); and when no retry attempt returns the expected
state, the returned control's thermal_control_status equals the last
actually-observed state rather than the expected one. -/
theorem claim_C7 (env : Nat → Option Control) (expectedState actualState : TCS)
    (currentControl : Option Control) (retryCount : Nat) :
    mismatchAttempts env expectedState retryCount ≤ MAX_STATE_MISMATCH_RETRIES
    ∧ (retryCount < MAX_STATE_MISMATCH_RETRIES → env retryCount = none →
        handleStateMismatch env expectedState actualState currentControl retryCount
          = handleStateMismatch env expectedState actualState currentControl
              (retryCount + 1))
    ∧ ((∀ i r, retryCount ≤ i → i < MAX_STATE_MISMATCH_RETRIES → env i = some r →
          r.thermal_control_status ≠ expectedState) →
        (handleStateMismatch env expectedState actualState currentControl
          retryCount).thermal_control_status
          = lastObserved env actualState retryCount) := by
  refine ⟨?_, ?_, ?_⟩
  · have h := mismatchAttempts_le_budget env expectedState
      (MAX_STATE_MISMATCH_RETRIES - retryCount) retryCount rfl
    omega
  · intro hlt hnone
    have hlt2 : ¬ MAX_STATE_MISMATCH_RETRIES ≤ retryCount := by omega
    rw [handleStateMismatch, if_neg hlt2, hnone]
    by_cases hmore : retryCount + 1 < MAX_STATE_MISMATCH_RETRIES
    · simp only [if_pos hmore]
    · simp only [if_neg hmore]
      have hge : MAX_STATE_MISMATCH_RETRIES ≤ retryCount + 1 := by omega
      rw [handleStateMismatch, if_pos hge]
  · exact handleStateMismatch_exhausted env expectedState currentControl
      (MAX_STATE_MISMATCH_RETRIES - retryCount) retryCount actualState rfl

/-- Witness for C7 at a concrete environment where every retry attempt is
a transport error. -/
theorem claim_C7_witness :
    mismatchAttempts envAllErr TCS.active 0 ≤ MAX_STATE_MISMATCH_RETRIES
    ∧ handleStateMismatch envAllErr TCS.active TCS.standby none 0
        = handleStateMismatch envAllErr TCS.active TCS.standby none 1
    ∧ (handleStateMismatch envAllErr TCS.active TCS.standby none
        0).thermal_control_status = lastObserved envAllErr TCS.standby 0 :=
  ⟨(claim_C7 envAllErr TCS.active TCS.standby none 0).1,
   (claim_C7 envAllErr TCS.active TCS.standby none 0).2.1 (by decide) rfl,
   (claim_C7 envAllErr TCS.active TCS.standby none 0).2.2
     (fun i r _ _ h => by simp [envAllErr] at h)⟩

/-- C9: in every cycle of the polling loop, a successful fetch makes the
next poll use the flag derived from the fetched thermal_control_status
and that flag's interval (so a flip from standby to active switches to
the active interval), a failed fetch (even after retries) reschedules
with the flag and interval unchanged, and in every case a next poll is
scheduled (scheduleNextPollStep is total: every branch of the source
callback calls scheduleNextPoll again). -/
theorem claim_C9 (config : Option PollingConfig) (isActive : Bool)
    (fetch : Option DeviceStatus) :
    (∀ status, fetch = some status →
      scheduleNextPollStep config isActive fetch
        = (decide (status.control.thermal_control_status = TCS.active),
           getPollingIntervalBasedOnState config
             (decide (status.control.thermal_control_status = TCS.active))))
    ∧ (fetch = none →
      scheduleNextPollStep config isActive fetch
        = (isActive, getPollingIntervalBasedOnState config isActive)) := by
  constructor
  · intro status hfetch
    subst hfetch
    by_cases h : decide (status.control.thermal_control_status = TCS.active) = isActive
    · simp [scheduleNextPollStep, h]
    · simp [scheduleNextPollStep, h]
  · intro hfetch
    subst hfetch
    rfl

/-- Witness for C9: a poller at the standby interval observing a flip to
"active" schedules the next poll at the default active interval (30000
ms), not the standby one. -/
theorem claim_C9_witness :
    scheduleNextPollStep none false (some activeDS) = (true, 30000) := by
  rw [(claim_C9 none false (some activeDS)).1 activeDS rfl]
  rfl

/- ------------------------------------------------------------------ -/
/- Helper lemmas: the JS Map model and queue keys                     -/
/- ------------------------------------------------------------------ -/

theorem mapGet_set_self (m : List (String × β)) (k : String) (v : β) :
    mapGet (mapSet m k v) k = some v := by
  induction m with
  | nil => simp [mapSet, mapGet]
  | cons e rest ih =>
    obtain ⟨k1, v1⟩ := e
    by_cases h : k1 = k
    · simp [mapSet, h, mapGet]
    · simp [mapSet, h, mapGet, ih]

theorem mapGet_set_ne (m : List (String × β)) (k q : String) (v : β) (h : q ≠ k) :
    mapGet (mapSet m k v) q = mapGet m q := by
  have hkq : ¬ k = q := fun hh => h hh.symm
  induction m with
  | nil =>
    simp only [mapSet, mapGet]
    rw [if_neg hkq]
  | cons e rest ih =>
    obtain ⟨k1, v1⟩ := e
    by_cases h1 : k1 = k
    · simp only [mapSet, if_pos h1, mapGet]
      rw [if_neg hkq, if_neg (fun hh : k1 = q => hkq (h1 ▸ hh))]
    · simp only [mapSet, if_neg h1, mapGet]
      rw [ih]

theorem mem_keys_mapSet (m : List (String × β)) (k a : String) (v : β) :
    a ∈ (mapSet m k v).map Prod.fst ↔ a ∈ m.map Prod.fst ∨ a = k := by
  induction m with
  | nil => simp [mapSet]
  | cons e rest ih =>
    obtain ⟨k1, v1⟩ := e
    by_cases h : k1 = k
    · subst h
      simp [mapSet]
      tauto
    · simp [mapSet, h, ih]
      tauto

theorem nodup_keys_mapSet (m : List (String × β)) (k : String) (v : β)
    (h : (m.map Prod.fst).Nodup) : ((mapSet m k v).map Prod.fst).Nodup := by
  induction m with
  | nil => simp [mapSet]
  | cons e rest ih =>
    obtain ⟨k1, v1⟩ := e
    simp only [List.map_cons, List.nodup_cons] at h
    by_cases hk : k1 = k
    · subst hk
      simpa [mapSet] using h
    · simp only [mapSet, if_neg hk, List.map_cons, List.nodup_cons]
      refine ⟨?_, ih h.2⟩
      rw [mem_keys_mapSet]
      push_neg
      exact ⟨h.1, hk⟩

theorem keys_mapDelete_sublist (m : List (String × β)) (k : String) :
    ((mapDelete m k).map Prod.fst).Sublist (m.map Prod.fst) := by
  induction m with
  | nil => simp [mapDelete]
  | cons e rest ih =>
    obtain ⟨k1, v1⟩ := e
    by_cases h : k1 = k
    · simp only [mapDelete, if_pos h, List.map_cons]
      exact (List.Sublist.refl _).cons k1
    · simp only [mapDelete, if_neg h, List.map_cons]
      exact ih.cons₂ k1

theorem nodup_keys_mapDelete (m : List (String × β)) (k : String)
    (h : (m.map Prod.fst).Nodup) : ((mapDelete m k).map Prod.fst).Nodup :=
  h.sublist (keys_mapDelete_sublist m k)

theorem mapGet_eq_none_of_not_mem (m : List (String × β)) (k : String)
    (h : k ∉ m.map Prod.fst) : mapGet m k = none := by
  induction m with
  | nil => rfl
  | cons e rest ih =>
    obtain ⟨k1, v1⟩ := e
    simp only [List.map_cons, List.mem_cons] at h
    push_neg at h
    simp only [mapGet]
    rw [if_neg (fun hh : k1 = k => h.1 hh.symm), ih h.2]

theorem mapGet_delete_self (m : List (String × β)) (k : String)
    (h : (m.map Prod.fst).Nodup) : mapGet (mapDelete m k) k = none := by
  induction m with
  | nil => rfl
  | cons e rest ih =>
    obtain ⟨k1, v1⟩ := e
    simp only [List.map_cons, List.nodup_cons] at h
    by_cases hk : k1 = k
    · subst hk
      simp only [mapDelete, if_pos rfl]
      exact mapGet_eq_none_of_not_mem rest k1 h.1
    · simp [mapDelete, hk, mapGet, ih h.2]

theorem mapGet_delete_ne (m : List (String × β)) (k q : String) (h : q ≠ k) :
    mapGet (mapDelete m k) q = mapGet m q := by
  induction m with
  | nil => rfl
  | cons e rest ih =>
    obtain ⟨k1, v1⟩ := e
    by_cases h1 : k1 = k
    · simp only [mapDelete, if_pos h1, mapGet]
      rw [if_neg (fun hh : k1 = q => h (hh.symm.trans h1))]
    · simp only [mapDelete, if_neg h1, mapGet]
      rw [ih]

theorem mapGet_of_mem_nodup (m : List (String × β)) (k : String) (v : β)
    (hmem : (k, v) ∈ m) (h : (m.map Prod.fst).Nodup) : mapGet m k = some v := by
  induction m with
  | nil => simp at hmem
  | cons e rest ih =>
    obtain ⟨k1, v1⟩ := e
    simp only [List.map_cons, List.nodup_cons] at h
    rcases List.mem_cons.mp hmem with he | he
    · injection he with hk hv
      subst hk
      subst hv
      simp [mapGet]
    · have hk : k1 ≠ k := by
        intro hh
        subst hh
        exact h.1 (List.mem_map.mpr ⟨(k1, v), he, rfl⟩)
      simp [mapGet, hk, ih he h.2]

theorem mem_mapSet_elim (m : List (String × β)) (k : String) (v : β) (e : String × β)
    (he : e ∈ mapSet m k v) : e ∈ m ∨ e = (k, v) := by
  induction m with
  | nil => simpa [mapSet] using he
  | cons e1 rest ih =>
    obtain ⟨k1, v1⟩ := e1
    by_cases h : k1 = k
    · rcases List.mem_cons.mp (by simpa [mapSet, h] using he) with h2 | h2
      · right
        exact h2
      · left
        exact List.mem_cons_of_mem _ h2
    · rcases List.mem_cons.mp (by simpa [mapSet, h] using he) with h2 | h2
      · left
        exact h2 ▸ List.mem_cons_self _ _
      · rcases ih h2 with h3 | h3
        · left
          exact List.mem_cons_of_mem _ h3
        · right
          exact h3

theorem mem_mapDelete_elim (m : List (String × β)) (k : String) (e : String × β)
    (he : e ∈ mapDelete m k) : e ∈ m := by
  induction m with
  | nil => simp [mapDelete] at he
  | cons e1 rest ih =>
    obtain ⟨k1, v1⟩ := e1
    by_cases h : k1 = k
    · exact List.mem_cons_of_mem _ (by simpa [mapDelete, h] using he)
    · rcases List.mem_cons.mp (by simpa [mapDelete, h] using he) with h2 | h2
      · exact h2 ▸ List.mem_cons_self _ _
      · exact List.mem_cons_of_mem _ (ih h2)

theorem selectOldest_mem (m : List (String × QueuedRequest))
    (e : String × QueuedRequest) (h : selectOldest m = some e) : e ∈ m := by
  induction m generalizing e with
  | nil => simp [selectOldest] at h
  | cons e1 rest ih =>
    rw [selectOldest] at h
    cases h2 : selectOldest rest with
    | none =>
      simp only [h2] at h
      cases h
      exact List.mem_cons_self _ _
    | some e2 =>
      simp only [h2] at h
      by_cases h3 : e2.2.timestamp < e1.2.timestamp
      · rw [if_pos h3] at h
        cases h
        exact List.mem_cons_of_mem _ (ih _ h2)
      · rw [if_neg h3] at h
        cases h
        exact List.mem_cons_self _ _

theorem getQueueKey_inj_op (d : String) {o1 o2 : Operation}
    (h : getQueueKey d o1 = getQueueKey d o2) : o1 = o2 := by
  have h2 := congrArg String.data h
  rw [getQueueKey, getQueueKey, String.data_append, String.data_append,
    String.data_append, String.data_append, List.append_assoc, List.append_assoc] at h2
  have h3 := List.append_cancel_left h2
  have h4 := List.append_cancel_left h3
  have h5 : opName o1 = opName o2 := congrArg String.mk h4
  cases o1 <;> cases o2 <;> first
    | rfl
    | exact absurd h5 (by decide)

theorem getQueueKey_op_ne (d : String) {o1 o2 : Operation} (h : o1 ≠ o2) :
    getQueueKey d o1 ≠ getQueueKey d o2 :=
  fun he => h (getQueueKey_inj_op d he)

/- ------------------------------------------------------------------ -/
/- Helper lemmas: projections of the ApiQueueManager operations       -/
/- ------------------------------------------------------------------ -/

theorem scheduleProcessing_queue (cfg : Config) (s : QMState) (now : Int) :
    (scheduleProcessing cfg s now).queue = s.queue := by
  cases h : s.scheduled <;> simp [scheduleProcessing, h]

theorem scheduleProcessing_callbacks (cfg : Config) (s : QMState) (now : Int) :
    (scheduleProcessing cfg s now).callbacks = s.callbacks := by
  cases h : s.scheduled <;> simp [scheduleProcessing, h]

theorem scheduleProcessing_deviceStates (cfg : Config) (s : QMState) (now : Int) :
    (scheduleProcessing cfg s now).deviceStates = s.deviceStates := by
  cases h : s.scheduled <;> simp [scheduleProcessing, h]

theorem scheduleConsistencyCheck_deviceStates (cfg : Config) (s : QMState) (now : Int) :
    (scheduleConsistencyCheck cfg s now).deviceStates = s.deviceStates := by
  by_cases h : s.deviceStates.isEmpty <;> simp [scheduleConsistencyCheck, h]

theorem finallyStep_deviceStates (cfg : Config) (s : QMState) (now : Int) :
    (finallyStep cfg s now).deviceStates = s.deviceStates := by
  by_cases h : s.queue.isEmpty <;>
    simp [finallyStep, h, scheduleProcessing_deviceStates,
      scheduleConsistencyCheck_deviceStates]

theorem enqueueCore_queue (cfg : Config) (s : QMState) (now : Int) (d : String)
    (op : Operation) (ps : List ParamV) (cb : Option Nat) :
    (enqueueCore cfg s now d op ps cb).queue
      = mapSet s.queue (getQueueKey d op) ⟨d, op, ps, now, 0⟩ := by
  simp [enqueueCore, scheduleProcessing_queue]

theorem enqueueCore_callbacks_none (cfg : Config) (s : QMState) (now : Int)
    (d : String) (op : Operation) (ps : List ParamV) :
    (enqueueCore cfg s now d op ps none).callbacks = s.callbacks := by
  simp [enqueueCore, scheduleProcessing_callbacks]

theorem enqueueCore_callbacks_some (cfg : Config) (s : QMState) (now : Int)
    (d : String) (op : Operation) (ps : List ParamV) (cb : Nat) :
    (enqueueCore cfg s now d op ps (some cb)).callbacks
      = mapSet s.callbacks (getQueueKey d op)
          ((mapGet s.callbacks (getQueueKey d op)).getD [] ++ [cb]) := by
  simp [enqueueCore, scheduleProcessing_callbacks]

theorem mapGet_ensure_isSome (states : List (String × DeviceState)) (d : String) :
    (mapGet (ensureDeviceState states d) d).isSome := by
  cases h : mapGet states d with
  | some ds => simp [ensureDeviceState, mapHas, h]
  | none => simp [ensureDeviceState, mapHas, h, mapGet_set_self]

/- ------------------------------------------------------------------ -/
/- Theorems: C4 (drift comparison), C5 (re-apply), C6 (queue retry),  -/
/- C8 (control-set success)                                           -/
/- ------------------------------------------------------------------ -/

/-- Counterexample to C4 as stated: starting from a device whose
lastSuccessfulState is `c85`, the caller enqueues only
setThermalControlStatus "active"; the resulting pendingState is seeded
from the full lastSuccessfulState, and a later fetched state that agrees
with the caller's explicitly set field (thermal_control_status) but
differs on set_temperature_f — a field this caller never set — still
triggers a mismatch. -/
theorem claim_C4_counterexample :
    mapGet (updatePendingState statesWithLast "dev1" Operation.setThermalControlStatus
        [ParamV.status TCS.active]) "dev1"
      = some ⟨some c85, some seededPatch, none⟩
    ∧ apiDrifted.thermal_control_status = TCS.active
    ∧ statesAreDifferent apiDrifted seededPatch = true := by
  refine ⟨?_, rfl, by decide⟩
  decide

/-- C4 amended: the drift comparison is a comparison of exactly the fields
present (defined) in pendingState — an undefined field never triggers a
mismatch — but pendingState is seeded from the last API-confirmed control
state, so a defined field need not have been explicitly set by the
caller. -/
theorem claim_C4 (api : Control) (p : ControlPatch) :
    statesAreDifferent api p = true ↔
      ((∃ v, p.set_temperature_c = some v ∧ v ≠ api.set_temperature_c)
       ∨ (∃ v, p.set_temperature_f = some v ∧ v ≠ api.set_temperature_f)
       ∨ (∃ v, p.thermal_control_status = some v ∧ v ≠ api.thermal_control_status)
       ∨ (∃ v, p.display_temperature_unit = some v
            ∧ v ≠ api.display_temperature_unit)) := by
  obtain ⟨pc, pf, pt, pd⟩ := p
  simp only [statesAreDifferent, Bool.or_eq_true]
  cases pc <;> cases pf <;> cases pt <;> cases pd <;>
    simp [ne_comm, or_assoc]

/-- Counterexample to C5 as stated: a pending patch whose only field is
set_temperature_c is detected as drifted, yet reapplyPendingState
enqueues nothing — the pending patch is not re-applied, because the code
only ever re-enqueues thermal_control_status and set_temperature_f. -/
theorem claim_C5_counterexample :
    statesAreDifferent apiC18 celsiusOnlyPatch = true
    ∧ (reapplyPendingState defaultConfig initState 0 "dev1" celsiusOnlyPatch).queue
        = [] := by
  constructor
  · decide
  · rfl

/-- C5 amended: on a detected drift, reapplyPendingState enqueues exactly
one setThermalControlStatus request when the pending
thermal_control_status is defined, and exactly one
setTemperatureFahrenheit request when the pending set_temperature_f is
defined and nonzero; a pending set_temperature_c is never re-applied (its
queue entry is untouched), and a zero set_temperature_f (falsy in JS) is
not re-applied either. -/
theorem claim_C5 (cfg : Config) (s : QMState) (now : Int) (d : String)
    (p : ControlPatch) :
    (∀ st, p.thermal_control_status = some st →
      mapGet (reapplyPendingState cfg s now d p).queue
          (getQueueKey d Operation.setThermalControlStatus)
        = some ⟨d, Operation.setThermalControlStatus, [ParamV.status st], now, 0⟩)
    ∧ (p.thermal_control_status = none →
      mapGet (reapplyPendingState cfg s now d p).queue
          (getQueueKey d Operation.setThermalControlStatus)
        = mapGet s.queue (getQueueKey d Operation.setThermalControlStatus))
    ∧ (∀ v, p.set_temperature_f = some v → v ≠ 0 →
      mapGet (reapplyPendingState cfg s now d p).queue
          (getQueueKey d Operation.setTemperatureFahrenheit)
        = some ⟨d, Operation.setTemperatureFahrenheit, [ParamV.num v], now, 0⟩)
    ∧ ((p.set_temperature_f = none ∨ p.set_temperature_f = some 0) →
      mapGet (reapplyPendingState cfg s now d p).queue
          (getQueueKey d Operation.setTemperatureFahrenheit)
        = mapGet s.queue (getQueueKey d Operation.setTemperatureFahrenheit))
    ∧ mapGet (reapplyPendingState cfg s now d p).queue
          (getQueueKey d Operation.setTemperatureCelsius)
        = mapGet s.queue (getQueueKey d Operation.setTemperatureCelsius) := by
  have hts : getQueueKey d Operation.setThermalControlStatus
      ≠ getQueueKey d Operation.setTemperatureFahrenheit :=
    getQueueKey_op_ne d (by decide)
  have htc : getQueueKey d Operation.setTemperatureCelsius
      ≠ getQueueKey d Operation.setThermalControlStatus :=
    getQueueKey_op_ne d (by decide)
  have hfc : getQueueKey d Operation.setTemperatureCelsius
      ≠ getQueueKey d Operation.setTemperatureFahrenheit :=
    getQueueKey_op_ne d (by decide)
  refine ⟨?_, ?_, ?_, ?_, ?_⟩
  · intro st hst
    cases hf : p.set_temperature_f with
    | none =>
      simp only [reapplyPendingState, hst, hf, enqueueCore_queue]
      exact mapGet_set_self ..
    | some v =>
      by_cases hv : v ≠ 0
      · simp only [reapplyPendingState, hst, hf, if_pos hv, enqueueCore_queue]
        rw [mapGet_set_ne _ _ _ _ hts]
        exact mapGet_set_self ..
      · simp only [reapplyPendingState, hst, hf, if_neg hv, enqueueCore_queue]
        exact mapGet_set_self ..
  · intro hst
    cases hf : p.set_temperature_f with
    | none => simp [reapplyPendingState, hst, hf]
    | some v =>
      by_cases hv : v ≠ 0
      · simp only [reapplyPendingState, hst, hf, if_pos hv, enqueueCore_queue]
        rw [mapGet_set_ne _ _ _ _ hts]
      · simp [reapplyPendingState, hst, hf, if_neg hv]
  · intro v hf hv
    cases hst : p.thermal_control_status with
    | none =>
      simp only [reapplyPendingState, hst, hf, if_pos hv, enqueueCore_queue]
      exact mapGet_set_self ..
    | some st =>
      simp only [reapplyPendingState, hst, hf, if_pos hv, enqueueCore_queue]
      exact mapGet_set_self ..
  · intro hor
    cases hst : p.thermal_control_status with
    | none =>
      rcases hor with hf | hf
      · simp [reapplyPendingState, hst, hf]
      · simp [reapplyPendingState, hst, hf]
    | some st =>
      rcases hor with hf | hf
      · simp only [reapplyPendingState, hst, hf, enqueueCore_queue]
        exact mapGet_set_ne _ _ _ _ (Ne.symm hts)
      · simp only [reapplyPendingState, hst, hf]
        rw [if_neg (by simp), enqueueCore_queue]
        exact mapGet_set_ne _ _ _ _ (Ne.symm hts)
  · cases hst : p.thermal_control_status with
    | none =>
      cases hf : p.set_temperature_f with
      | none => simp [reapplyPendingState, hst, hf]
      | some v =>
        by_cases hv : v ≠ 0
        · simp only [reapplyPendingState, hst, hf, if_pos hv, enqueueCore_queue]
          exact mapGet_set_ne _ _ _ _ hfc
        · simp [reapplyPendingState, hst, hf, if_neg hv]
    | some st =>
      cases hf : p.set_temperature_f with
      | none =>
        simp only [reapplyPendingState, hst, hf, enqueueCore_queue]
        exact mapGet_set_ne _ _ _ _ htc
      | some v =>
        by_cases hv : v ≠ 0
        · simp only [reapplyPendingState, hst, hf, if_pos hv, enqueueCore_queue]
          rw [mapGet_set_ne _ _ _ _ hfc]
          exact mapGet_set_ne _ _ _ _ htc
        · simp only [reapplyPendingState, hst, hf, if_neg hv, enqueueCore_queue]
          exact mapGet_set_ne _ _ _ _ htc

/-- Witness for C5 (amended) at a concrete patch with both covered fields
defined. -/
theorem claim_C5_witness :
    mapGet (reapplyPendingState defaultConfig initState 0 "dev1" wPatch).queue
        (getQueueKey "dev1" Operation.setThermalControlStatus)
      = some ⟨"dev1", Operation.setThermalControlStatus, [ParamV.status TCS.active],
          0, 0⟩
    ∧ mapGet (reapplyPendingState defaultConfig initState 0 "dev1" wPatch).queue
        (getQueueKey "dev1" Operation.setTemperatureFahrenheit)
      = some ⟨"dev1", Operation.setTemperatureFahrenheit, [ParamV.num 85], 0, 0⟩
    ∧ mapGet (reapplyPendingState defaultConfig initState 0 "dev1" wPatch).queue
        (getQueueKey "dev1" Operation.setTemperatureCelsius)
      = mapGet initState.queue (getQueueKey "dev1" Operation.setTemperatureCelsius) :=
  ⟨(claim_C5 defaultConfig initState 0 "dev1" wPatch).1 TCS.active rfl,
   (claim_C5 defaultConfig initState 0 "dev1" wPatch).2.2.1 85 rfl (by decide),
   (claim_C5 defaultConfig initState 0 "dev1" wPatch).2.2.2.2⟩

/-- C6: when a dispatched request fails with retryCount weakly below
maxRetries, it is re-enqueued under the same key with retryCount + 1 and a
timestamp delayed by retryBackoff * (retryCount + 1), and no callback is
invoked (the registration is untouched); when it fails with retryCount
equal to maxRetries, every callback registered for its key is invoked with
the single failure result, the registration is cleared, and the queue is
untouched (no re-enqueue). The Nodup hypothesis is the key-uniqueness
invariant of the JS Map holding the callbacks. -/
theorem claim_C6 (cfg : Config) (s : QMState) (now : Int) (req : QueuedRequest)
    (err : ApiError) (hwf : (s.callbacks.map Prod.fst).Nodup) :
    (req.retryCount < cfg.maxRetries →
      (handleError cfg s now req err).2 = []
      ∧ (handleError cfg s now req err).1.callbacks = s.callbacks
      ∧ mapGet (handleError cfg s now req err).1.queue
          (getQueueKey req.deviceId req.operation)
        = some { req with
            retryCount := req.retryCount + 1
            timestamp := now + cfg.retryBackoff * ((req.retryCount : Int) + 1) })
    ∧ (req.retryCount = cfg.maxRetries →
      (handleError cfg s now req err).2
        = ((mapGet s.callbacks (getQueueKey req.deviceId req.operation)).getD []).map
            (fun id => ⟨id, ⟨false, none, some err, some (errStatusOf err)⟩⟩)
      ∧ mapGet (handleError cfg s now req err).1.callbacks
          (getQueueKey req.deviceId req.operation) = none
      ∧ (handleError cfg s now req err).1.queue = s.queue) := by
  constructor
  · intro hlt
    refine ⟨by simp [handleError, hlt], by simp [handleError, hlt], ?_⟩
    simp only [handleError, if_pos hlt]
    exact mapGet_set_self ..
  · intro heq
    have hnlt : ¬ req.retryCount < cfg.maxRetries := by omega
    refine ⟨by simp [handleError, hnlt], ?_, by simp [handleError, hnlt]⟩
    simp only [handleError, if_neg hnlt]
    exact mapGet_delete_self _ _ hwf

/-- Witness for C6 at concrete inputs: the same 429 failure below and at
the retry cap. -/
theorem claim_C6_witness :
    (handleError defaultConfig cbState 7 reqW errW).2 = []
    ∧ mapGet (handleError defaultConfig cbState 7 reqW errW).1.queue
        (getQueueKey "dev1" Operation.setThermalControlStatus)
      = some ⟨"dev1", Operation.setThermalControlStatus, [ParamV.status TCS.active],
          5007, 1⟩
    ∧ (handleError defaultConfig cbState 7 reqExhausted errW).2
      = [⟨3, ⟨false, none, some errW, some 429⟩⟩, ⟨4, ⟨false, none, some errW, some 429⟩⟩]
    ∧ mapGet (handleError defaultConfig cbState 7 reqExhausted errW).1.callbacks
        (getQueueKey "dev1" Operation.setThermalControlStatus) = none := by
  have h1 := (claim_C6 defaultConfig cbState 7 reqW errW (by decide)).1 (by decide)
  have h2 := (claim_C6 defaultConfig cbState 7 reqExhausted errW (by decide)).2 rfl
  exact ⟨h1.1, h1.2.2.trans (by decide), h2.1.trans (by decide), h2.2.1⟩

/-- Helper: after a successful control operation, handleSuccess rewrites
the device's state to exactly the response control with cleared pending
state and error. -/
theorem handleSuccess_control_deviceStates (cfg : Config) (s : QMState) (now : Int)
    (req : QueuedRequest) (c : Control) (sc : Int)
    (hop : req.operation ≠ Operation.getDeviceStatus) :
    mapGet (handleSuccess cfg s now req (RespData.ctrl c) sc).1.deviceStates
        req.deviceId
      = some ⟨some c, none, none⟩ := by
  show mapGet (handleSuccessState cfg s now req (RespData.ctrl c)).deviceStates
      req.deviceId = _
  simp only [handleSuccessState, if_pos hop]
  cases hds : mapGet (ensureDeviceState s.deviceStates req.deviceId) req.deviceId with
  | none =>
    have := mapGet_ensure_isSome s.deviceStates req.deviceId
    rw [hds] at this
    simp at this
  | some ds =>
    simp only [hds]
    exact mapGet_set_self ..

/-- C8: after a successful dispatch of any control-set operation, the
device's pendingState is empty and its lastSuccessfulState is exactly the
control data returned by the API (the lastError is cleared too). -/
theorem claim_C8 (cfg : Config) (s : QMState) (now : Int) (req : QueuedRequest)
    (c : Control) (sc : Int) (hop : req.operation ≠ Operation.getDeviceStatus) :
    mapGet (completeSuccess cfg s now req (RespData.ctrl c) sc).deviceStates
        req.deviceId
      = some ⟨some c, none, none⟩ := by
  unfold completeSuccess
  rw [finallyStep_deviceStates]
  exact handleSuccess_control_deviceStates cfg { s with time := now } now req c sc hop

/-- Witness for C8 at a concrete control-set completion. -/
theorem claim_C8_witness :
    mapGet (completeSuccess defaultConfig initState 10 reqW (RespData.ctrl ctrlResp)
        200).deviceStates "dev1"
      = some ⟨some ctrlResp, none, none⟩ :=
  claim_C8 defaultConfig initState 10 reqW ctrlResp 200 (by decide)

/- ------------------------------------------------------------------ -/
/- Well-formedness invariant of the maps (C1)                         -/
/- ------------------------------------------------------------------ -/

theorem scheduleConsistencyCheck_queue (cfg : Config) (s : QMState) (now : Int) :
    (scheduleConsistencyCheck cfg s now).queue = s.queue := by
  by_cases h : s.deviceStates.isEmpty <;> simp [scheduleConsistencyCheck, h]

theorem scheduleConsistencyCheck_callbacks (cfg : Config) (s : QMState) (now : Int) :
    (scheduleConsistencyCheck cfg s now).callbacks = s.callbacks := by
  by_cases h : s.deviceStates.isEmpty <;> simp [scheduleConsistencyCheck, h]

theorem finallyStep_queue (cfg : Config) (s : QMState) (now : Int) :
    (finallyStep cfg s now).queue = s.queue := by
  by_cases h : s.queue.isEmpty <;>
    simp [finallyStep, h, scheduleProcessing_queue, scheduleConsistencyCheck_queue]

theorem finallyStep_callbacks (cfg : Config) (s : QMState) (now : Int) :
    (finallyStep cfg s now).callbacks = s.callbacks := by
  by_cases h : s.queue.isEmpty <;>
    simp [finallyStep, h, scheduleProcessing_callbacks,
      scheduleConsistencyCheck_callbacks]

theorem reapply_callbacks (cfg : Config) (s : QMState) (now : Int) (d : String)
    (p : ControlPatch) :
    (reapplyPendingState cfg s now d p).callbacks = s.callbacks := by
  cases hst : p.thermal_control_status with
  | none =>
    cases hf : p.set_temperature_f with
    | none => simp [reapplyPendingState, hst, hf]
    | some v =>
      by_cases hv : v ≠ 0
      · simp [reapplyPendingState, hst, hf, if_pos hv, enqueueCore_callbacks_none]
      · simp [reapplyPendingState, hst, hf, if_neg hv]
  | some st =>
    cases hf : p.set_temperature_f with
    | none => simp [reapplyPendingState, hst, hf, enqueueCore_callbacks_none]
    | some v =>
      by_cases hv : v ≠ 0
      · simp [reapplyPendingState, hst, hf, if_pos hv, enqueueCore_callbacks_none]
      · simp [reapplyPendingState, hst, hf, if_neg hv, enqueueCore_callbacks_none]

theorem handleSuccessState_callbacks (cfg : Config) (s : QMState) (now : Int)
    (req : QueuedRequest) (data : RespData) :
    (handleSuccessState cfg s now req data).callbacks = s.callbacks := by
  unfold handleSuccessState
  split
  · rfl
  · split
    · split
      · split
        · split
          · exact reapply_callbacks ..
          · rfl
        · rfl
      · rfl
    · rfl

theorem WF_enqueueCore (cfg : Config) (s : QMState) (now : Int) (d : String)
    (op : Operation) (ps : List ParamV) (cb : Option Nat) (h : WF s) :
    WF (enqueueCore cfg s now d op ps cb) := by
  obtain ⟨h1, h2, h3⟩ := h
  refine ⟨?_, ?_, ?_⟩
  · rw [enqueueCore_queue]
    exact nodup_keys_mapSet _ _ _ h1
  · intro e he
    rw [enqueueCore_queue] at he
    rcases mem_mapSet_elim _ _ _ _ he with hm | hm
    · exact h2 e hm
    · subst hm
      rfl
  · cases cb with
    | none =>
      rw [enqueueCore_callbacks_none]
      exact h3
    | some c =>
      rw [enqueueCore_callbacks_some]
      exact nodup_keys_mapSet _ _ _ h3

theorem WF_reapply (cfg : Config) (s : QMState) (now : Int) (d : String)
    (p : ControlPatch) (h : WF s) : WF (reapplyPendingState cfg s now d p) := by
  unfold reapplyPendingState
  split
  · split
    · split
      · exact WF_enqueueCore _ _ _ _ _ _ _ (WF_enqueueCore _ _ _ _ _ _ _ h)
      · exact WF_enqueueCore _ _ _ _ _ _ _ h
    · exact WF_enqueueCore _ _ _ _ _ _ _ h
  · split
    · split
      · exact WF_enqueueCore _ _ _ _ _ _ _ h
      · exact h
    · exact h

theorem WF_handleSuccessState (cfg : Config) (s : QMState) (now : Int)
    (req : QueuedRequest) (data : RespData) (h : WF s) :
    WF (handleSuccessState cfg s now req data) := by
  unfold handleSuccessState
  split
  · exact ⟨h.1, h.2.1, h.2.2⟩
  · split
    · split
      · split
        · split
          · exact WF_reapply _ _ _ _ _ h
          · exact ⟨h.1, h.2.1, h.2.2⟩
        · exact h
      · exact h
    · exact h

theorem WF_handleSuccess (cfg : Config) (s : QMState) (now : Int)
    (req : QueuedRequest) (data : RespData) (sc : Int) (h : WF s) :
    WF (handleSuccess cfg s now req data sc).1 := by
  have hs1 := WF_handleSuccessState cfg s now req data h
  exact ⟨hs1.1, hs1.2.1, nodup_keys_mapDelete _ _ hs1.2.2⟩

theorem WF_handleError (cfg : Config) (s : QMState) (now : Int)
    (req : QueuedRequest) (err : ApiError) (h : WF s) :
    WF (handleError cfg s now req err).1 := by
  unfold handleError
  split
  · refine ⟨nodup_keys_mapSet _ _ _ h.1, ?_, h.2.2⟩
    intro e he
    rcases mem_mapSet_elim _ _ _ _ he with hm | hm
    · exact h.2.1 e hm
    · subst hm
      rfl
  · exact ⟨h.1, h.2.1, nodup_keys_mapDelete _ _ h.2.2⟩

theorem WF_processQueueStart (s : QMState) (now : Int) (h : WF s) :
    WF (processQueueStart s now) := by
  unfold processQueueStart
  split
  · exact h
  · split
    · exact h
    · refine ⟨nodup_keys_mapDelete _ _ h.1, ?_, h.2.2⟩
      intro e he
      exact h.2.1 e (mem_mapDelete_elim _ _ _ he)

theorem WF_finallyStep (cfg : Config) (s : QMState) (now : Int) (h : WF s) :
    WF (finallyStep cfg s now) := by
  refine ⟨?_, ?_, ?_⟩
  · rw [finallyStep_queue]
    exact h.1
  · intro e he
    rw [finallyStep_queue] at he
    exact h.2.1 e he
  · rw [finallyStep_callbacks]
    exact h.2.2

theorem WF_foldl_enqueue (cfg : Config) (now : Int)
    (l : List (String × DeviceState)) :
    ∀ s : QMState, WF s →
      WF (l.foldl (fun st e => enqueueCore cfg st now e.1 Operation.getDeviceStatus []
        none) s) := by
  induction l with
  | nil => intro s h; exact h
  | cons e rest ih =>
    intro s h
    exact ih _ (WF_enqueueCore _ _ _ _ _ _ _ h)

theorem reach_WF (cfg : Config) (s : QMState) (h : Reach cfg s) : WF s := by
  induction h with
  | init => exact ⟨List.Pairwise.nil, by intro e he; simp [initState] at he,
      List.Pairwise.nil⟩
  | step hs hstep ih =>
    cases hstep with
    | enq now d op ps cb htime hdue =>
      exact WF_enqueueCore _ _ _ _ _ _ _ ⟨ih.1, ih.2.1, ih.2.2⟩
    | fireProc tf hsch =>
      exact WF_processQueueStart _ _ ⟨ih.1, ih.2.1, ih.2.2⟩
    | fireCons tf hsch =>
      exact WF_foldl_enqueue _ _ _ _ ⟨ih.1, ih.2.1, ih.2.2⟩
    | doneOk now req data sc hin htime hdue hshape =>
      exact WF_finallyStep _ _ _
        (WF_handleSuccess cfg _ now req data sc ⟨ih.1, ih.2.1, ih.2.2⟩)
    | doneErr now req err hin htime hdue =>
      exact WF_finallyStep _ _ _ (WF_handleError _ _ _ _ _ ⟨ih.1, ih.2.1, ih.2.2⟩)

/- ------------------------------------------------------------------ -/
/- Coalescing lemmas (C1)                                             -/
/- ------------------------------------------------------------------ -/

theorem filter_key_len_le_one (m : List (String × QueuedRequest))
    (hnd : (m.map Prod.fst).Nodup)
    (hkeys : ∀ e ∈ m, e.1 = getQueueKey e.2.deviceId e.2.operation)
    (p : String × QueuedRequest → Bool) (k : String)
    (hp : ∀ e, p e = true → getQueueKey e.2.deviceId e.2.operation = k) :
    (m.filter p).length ≤ 1 := by
  induction m with
  | nil => simp
  | cons e rest ih =>
    simp only [List.map_cons, List.nodup_cons] at hnd
    cases hpe : p e with
    | false =>
      rw [List.filter_cons, hpe]
      simp only [Bool.false_eq_true, if_false]
      exact ih hnd.2 (fun x hx => hkeys x (List.mem_cons_of_mem _ hx))
    | true =>
      have hrest : rest.filter p = [] := by
        rw [List.filter_eq_nil_iff]
        intro x hx hpx
        apply hnd.1
        have hxk : x.1 = e.1 := by
          rw [hkeys x (List.mem_cons_of_mem _ hx), hp x hpx,
            ← hp e hpe, ← hkeys e (List.mem_cons_self _ _)]
        exact List.mem_map.mpr ⟨x, hx, hxk⟩
      rw [List.filter_cons, hpe]
      simp [hrest]

theorem applyEnqueues_cons (cfg : Config) (s : QMState) (d : String) (op : Operation)
    (x : Int × List ParamV × Option Nat) (rest : List (Int × List ParamV × Option Nat)) :
    applyEnqueues cfg s d op (x :: rest)
      = applyEnqueues cfg (enqueueCore cfg s x.1 d op x.2.1 x.2.2) d op rest := rfl

theorem applyEnqueues_queue_last (cfg : Config) (d : String) (op : Operation) :
    ∀ (batch : List (Int × List ParamV × Option Nat)) (s : QMState), batch ≠ [] →
      mapGet (applyEnqueues cfg s d op batch).queue (getQueueKey d op)
        = batch.getLast?.map
            (fun e => (⟨d, op, e.2.1, e.1, 0⟩ : QueuedRequest)) := by
  intro batch
  induction batch with
  | nil => intro s h; exact absurd rfl h
  | cons x rest ih =>
    intro s h
    cases rest with
    | nil =>
      rw [applyEnqueues_cons]
      show mapGet (enqueueCore cfg s x.1 d op x.2.1 x.2.2).queue (getQueueKey d op) = _
      rw [enqueueCore_queue, mapGet_set_self]
      rfl
    | cons y tl =>
      rw [applyEnqueues_cons, ih _ (by simp), List.getLast?_cons_cons]

theorem applyEnqueues_callbacks_acc (cfg : Config) (d : String) (op : Operation) :
    ∀ (batch : List (Int × List ParamV × Option Nat)) (s : QMState),
      (mapGet (applyEnqueues cfg s d op batch).callbacks (getQueueKey d op)).getD []
        = (mapGet s.callbacks (getQueueKey d op)).getD []
          ++ batch.filterMap (fun e => e.2.2) := by
  intro batch
  induction batch with
  | nil => intro s; simp [applyEnqueues]
  | cons x rest ih =>
    intro s
    rw [applyEnqueues_cons, ih]
    cases hcb : x.2.2 with
    | none =>
      rw [enqueueCore_callbacks_none]
      simp [List.filterMap_cons, hcb]
    | some cb =>
      rw [enqueueCore_callbacks_some, mapGet_set_self]
      simp [List.filterMap_cons, hcb]

theorem selectOldest_ne_nil (m : List (String × QueuedRequest))
    (e : String × QueuedRequest) (h : selectOldest m = some e) : m ≠ [] := by
  intro hm
  subst hm
  simp [selectOldest] at h

theorem handleSuccess_events (cfg : Config) (s : QMState) (now : Int)
    (req : QueuedRequest) (data : RespData) (sc : Int) :
    (handleSuccess cfg s now req data sc).2
      = ((mapGet s.callbacks (getQueueKey req.deviceId req.operation)).getD []).map
          (fun id => ⟨id, ⟨true, some data, none, some sc⟩⟩) := by
  show ((mapGet (handleSuccessState cfg s now req data).callbacks
      (getQueueKey req.deviceId req.operation)).getD []).map _ = _
  rw [handleSuccessState_callbacks]

theorem handleSuccess_callbacks_cleared (cfg : Config) (s : QMState) (now : Int)
    (req : QueuedRequest) (data : RespData) (sc : Int)
    (h : (s.callbacks.map Prod.fst).Nodup) :
    mapGet (handleSuccess cfg s now req data sc).1.callbacks
      (getQueueKey req.deviceId req.operation) = none := by
  show mapGet (mapDelete (handleSuccessState cfg s now req data).callbacks
      (getQueueKey req.deviceId req.operation))
      (getQueueKey req.deviceId req.operation) = none
  rw [handleSuccessState_callbacks]
  exact mapGet_delete_self _ _ h

/-- C1: in every reachable state the queue holds at most one request per
(deviceId, operation); a sequence of coalescing enqueues to one key leaves
exactly one queue entry carrying the parameters (and timestamp) of the
last enqueue while accumulating every registered callback; the dispatcher
dispatches exactly the queue's entry for the selected key; and a settling
success invokes every callback registered for the key with the single
result and clears the registration (handleError settles the failing case
the same way, proven with C6). -/
theorem claim_C1 (cfg : Config) (s : QMState) (hreach : Reach cfg s) :
    (∀ d op, (s.queue.filter fun e =>
        decide (e.2.deviceId = d) && decide (e.2.operation = op)).length ≤ 1)
    ∧ (∀ d op (batch : List (Int × List ParamV × Option Nat)), batch ≠ [] →
        mapGet (applyEnqueues cfg s d op batch).queue (getQueueKey d op)
          = batch.getLast?.map
              (fun e => (⟨d, op, e.2.1, e.1, 0⟩ : QueuedRequest)))
    ∧ (∀ d op (batch : List (Int × List ParamV × Option Nat)),
        (mapGet (applyEnqueues cfg s d op batch).callbacks (getQueueKey d op)).getD []
          = (mapGet s.callbacks (getQueueKey d op)).getD []
            ++ batch.filterMap (fun e => e.2.2))
    ∧ (∀ now k r, s.processing = false → selectOldest s.queue = some (k, r) →
        mapGet s.queue k = some r
        ∧ (processQueueStart s now).dispatches = (now, r) :: s.dispatches)
    ∧ (∀ now req data sc,
        (handleSuccess cfg s now req data sc).2
          = ((mapGet s.callbacks (getQueueKey req.deviceId req.operation)).getD
              []).map (fun id => ⟨id, ⟨true, some data, none, some sc⟩⟩)
        ∧ mapGet (handleSuccess cfg s now req data sc).1.callbacks
            (getQueueKey req.deviceId req.operation) = none) := by
  have hwf := reach_WF cfg s hreach
  refine ⟨?_, ?_, ?_, ?_, ?_⟩
  · intro d op
    refine filter_key_len_le_one s.queue hwf.1 hwf.2.1 _ (getQueueKey d op) ?_
    intro e he
    simp only [Bool.and_eq_true, decide_eq_true_eq] at he
    rw [he.1, he.2]
  · intro d op batch h
    exact applyEnqueues_queue_last cfg d op batch s h
  · intro d op batch
    exact applyEnqueues_callbacks_acc cfg d op batch s
  · intro now k r hproc hsel
    have hmem := selectOldest_mem _ _ hsel
    have hget := mapGet_of_mem_nodup _ _ _ hmem hwf.1
    refine ⟨hget, ?_⟩
    have hne : s.queue.isEmpty = false := by
      cases hq : s.queue with
      | nil => exact absurd hq (selectOldest_ne_nil _ _ hsel)
      | cons a l => rfl
    unfold processQueueStart
    rw [hproc, hne]
    simp only [Bool.or_self, Bool.false_eq_true, if_false, hsel]
  · intro now req data sc
    exact ⟨handleSuccess_events cfg s now req data sc,
      handleSuccess_callbacks_cleared cfg s now req data sc hwf.2.2⟩

/-- Witness for C1 on the reachable state `wEnq1` (one enqueue with
callback 7 already coalesced in): two further enqueues (callbacks 8 and 9)
leave one queue entry with the last parameters and all three callbacks
registered, and a settling success invokes callback 7 with the single
result; the per-key count bound holds. -/
theorem claim_C1_witness :
    mapGet (applyEnqueues defaultConfig wEnq1 "dev1"
        Operation.setThermalControlStatus
        [(1, [ParamV.status TCS.active], some 8),
         (2, [ParamV.status TCS.standby], some 9)]).queue
      (getQueueKey "dev1" Operation.setThermalControlStatus)
      = some ⟨"dev1", Operation.setThermalControlStatus,
          [ParamV.status TCS.standby], 2, 0⟩
    ∧ (mapGet (applyEnqueues defaultConfig wEnq1 "dev1"
        Operation.setThermalControlStatus
        [(1, [ParamV.status TCS.active], some 8),
         (2, [ParamV.status TCS.standby], some 9)]).callbacks
      (getQueueKey "dev1" Operation.setThermalControlStatus)).getD []
      = [7, 8, 9]
    ∧ (handleSuccess defaultConfig wEnq1 11 reqW (RespData.ctrl ctrlResp) 200).2
      = [⟨7, ⟨true, some (RespData.ctrl ctrlResp), none, some 200⟩⟩]
    ∧ (wEnq1.queue.filter fun e =>
        decide (e.2.deviceId = "dev1")
          && decide (e.2.operation = Operation.setThermalControlStatus)).length ≤ 1 := by
  have hreach : Reach defaultConfig wEnq1 :=
    Reach.step Reach.init (Step.enq initState 0 "dev1"
      Operation.setThermalControlStatus [ParamV.status TCS.active] (some 7)
      (by decide) (by decide))
  have h := claim_C1 defaultConfig wEnq1 hreach
  refine ⟨(h.2.1 "dev1" Operation.setThermalControlStatus _ (by decide)).trans
      (by decide), ?_, ?_, h.1 "dev1" Operation.setThermalControlStatus⟩
  · exact (h.2.2.1 "dev1" Operation.setThermalControlStatus _).trans (by decide)
  · exact ((h.2.2.2.2 11 reqW (RespData.ctrl ctrlResp) 200).1).trans (by decide)

/- ------------------------------------------------------------------ -/
/- Rate-limit invariant lemmas (C2)                                   -/
/- ------------------------------------------------------------------ -/

theorem scheduleProcessing_time (cfg : Config) (s : QMState) (now : Int) :
    (scheduleProcessing cfg s now).time = s.time := by
  cases h : s.scheduled <;> simp [scheduleProcessing, h]

theorem enqueueCore_time (cfg : Config) (s : QMState) (now : Int) (d : String)
    (op : Operation) (ps : List ParamV) (cb : Option Nat) :
    (enqueueCore cfg s now d op ps cb).time = s.time := by
  simp [enqueueCore, scheduleProcessing_time]

theorem fireDelay_nonneg (i now last : Int) : 0 ≤ fireDelay i now last :=
  le_max_left 0 _

theorem fireDelay_bound (i now last : Int) : last + i ≤ now + fireDelay i now last := by
  have h : i - (now - last) ≤ fireDelay i now last := le_max_right 0 _
  omega

theorem Inv_scheduleProcessing (cfg : Config) {s : QMState} {now : Int}
    (h : Inv cfg s) (hnow : s.time = now) : Inv cfg (scheduleProcessing cfg s now) := by
  cases hsch : s.scheduled with
  | some t =>
    unfold scheduleProcessing
    rw [hsch]
    exact h
  | none =>
    unfold scheduleProcessing
    rw [hsch]
    refine ⟨h.pairwise, h.boundedByLast, h.lastLeTime, ?_, ?_⟩
    · intro t ht
      injection ht with ht2
      subst ht2
      show s.time ≤ now + fireDelay cfg.minRequestInterval now s.lastProcessTime
      have h0 := fireDelay_nonneg cfg.minRequestInterval now s.lastProcessTime
      omega
    · intro t ht hk
      injection ht with ht2
      subst ht2
      show s.lastProcessTime + cfg.minRequestInterval
        ≤ now + fireDelay cfg.minRequestInterval now s.lastProcessTime
      exact fireDelay_bound ..

theorem Inv_enqueueCore (cfg : Config) {s : QMState} {now : Int} (d : String)
    (op : Operation) (ps : List ParamV) (cb : Option Nat) (h : Inv cfg s)
    (hnow : s.time = now) : Inv cfg (enqueueCore cfg s now d op ps cb) := by
  unfold enqueueCore
  exact Inv_scheduleProcessing cfg
    ⟨h.pairwise, h.boundedByLast, h.lastLeTime, h.timerTime, h.timerSep⟩ hnow

theorem IT_foldl_enqueue (cfg : Config) (now : Int)
    (l : List (String × DeviceState)) :
    ∀ s : QMState, Inv cfg s → s.time = now →
      Inv cfg (l.foldl (fun st e => enqueueCore cfg st now e.1
        Operation.getDeviceStatus [] none) s)
      ∧ (l.foldl (fun st e => enqueueCore cfg st now e.1
          Operation.getDeviceStatus [] none) s).time = now := by
  induction l with
  | nil => intro s h hnow; exact ⟨h, hnow⟩
  | cons e rest ih =>
    intro s h hnow
    exact ih _ (Inv_enqueueCore cfg _ _ _ _ h hnow)
      ((enqueueCore_time ..).trans hnow)

theorem IT_reapply (cfg : Config) {s : QMState} {now : Int} (d : String)
    (p : ControlPatch) (h : Inv cfg s) (hnow : s.time = now) :
    Inv cfg (reapplyPendingState cfg s now d p)
    ∧ (reapplyPendingState cfg s now d p).time = now := by
  unfold reapplyPendingState
  split
  · split
    · split
      · refine ⟨Inv_enqueueCore cfg _ _ _ _
          (Inv_enqueueCore cfg _ _ _ _ h hnow) ((enqueueCore_time ..).trans hnow), ?_⟩
        rw [enqueueCore_time, enqueueCore_time]
        exact hnow
      · exact ⟨Inv_enqueueCore cfg _ _ _ _ h hnow, (enqueueCore_time ..).trans hnow⟩
    · exact ⟨Inv_enqueueCore cfg _ _ _ _ h hnow, (enqueueCore_time ..).trans hnow⟩
  · split
    · split
      · exact ⟨Inv_enqueueCore cfg _ _ _ _ h hnow, (enqueueCore_time ..).trans hnow⟩
      · exact ⟨h, hnow⟩
    · exact ⟨h, hnow⟩

theorem IT_handleSuccessState (cfg : Config) {s : QMState} {now : Int}
    (req : QueuedRequest) (data : RespData) (h : Inv cfg s) (hnow : s.time = now) :
    Inv cfg (handleSuccessState cfg s now req data)
    ∧ (handleSuccessState cfg s now req data).time = now := by
  unfold handleSuccessState
  split
  · exact ⟨⟨h.pairwise, h.boundedByLast, h.lastLeTime, h.timerTime, h.timerSep⟩, hnow⟩
  · split
    · split
      · split
        · split
          · exact IT_reapply cfg _ _ h hnow
          · exact ⟨⟨h.pairwise, h.boundedByLast, h.lastLeTime, h.timerTime,
              h.timerSep⟩, hnow⟩
        · exact ⟨h, hnow⟩
      · exact ⟨h, hnow⟩
    · exact ⟨h, hnow⟩

theorem IT_handleSuccess (cfg : Config) {s : QMState} {now : Int}
    (req : QueuedRequest) (data : RespData) (sc : Int) (h : Inv cfg s)
    (hnow : s.time = now) :
    Inv cfg (handleSuccess cfg s now req data sc).1
    ∧ (handleSuccess cfg s now req data sc).1.time = now := by
  have hs1 := IT_handleSuccessState cfg req data h hnow
  exact ⟨⟨hs1.1.pairwise, hs1.1.boundedByLast, hs1.1.lastLeTime, hs1.1.timerTime,
    hs1.1.timerSep⟩, hs1.2⟩

theorem IT_handleError (cfg : Config) {s : QMState} {now : Int}
    (req : QueuedRequest) (err : ApiError) (h : Inv cfg s) (hnow : s.time = now) :
    Inv cfg (handleError cfg s now req err).1
    ∧ (handleError cfg s now req err).1.time = now := by
  unfold handleError
  split
  · exact ⟨⟨h.pairwise, h.boundedByLast, h.lastLeTime, h.timerTime, h.timerSep⟩, hnow⟩
  · exact ⟨⟨h.pairwise, h.boundedByLast, h.lastLeTime, h.timerTime, h.timerSep⟩, hnow⟩

theorem IT_scheduleConsistencyCheck (cfg : Config)
    (hC : 0 ≤ cfg.consistencyCheckInterval) {s : QMState} {now : Int}
    (h : Inv cfg s) (hnow : s.time = now) :
    Inv cfg (scheduleConsistencyCheck cfg s now)
    ∧ (scheduleConsistencyCheck cfg s now).time = now := by
  unfold scheduleConsistencyCheck
  dsimp only
  split
  · exact ⟨⟨h.pairwise, h.boundedByLast, h.lastLeTime,
      fun t ht => Option.noConfusion ht,
      fun t ht _ => Option.noConfusion ht⟩, hnow⟩
  · refine ⟨⟨h.pairwise, h.boundedByLast, h.lastLeTime, ?_, ?_⟩, hnow⟩
    · intro t ht
      injection ht with ht2
      subst ht2
      show s.time ≤ now + cfg.consistencyCheckInterval
      omega
    · intro t ht hk
      injection ht with ht2
      subst ht2
      exact TimerKind.noConfusion hk

theorem IT_finallyStep (cfg : Config) (hC : 0 ≤ cfg.consistencyCheckInterval)
    {s : QMState} {now : Int} (h : Inv cfg s) (hnow : s.time = now) :
    Inv cfg (finallyStep cfg s now) ∧ (finallyStep cfg s now).time = now := by
  unfold finallyStep
  split
  · exact IT_scheduleConsistencyCheck cfg hC h hnow
  · exact ⟨Inv_scheduleProcessing cfg h hnow, (scheduleProcessing_time ..).trans hnow⟩

theorem Inv_advanceTime (cfg : Config) {s : QMState} {now : Int} (h : Inv cfg s)
    (htime : s.time ≤ now) (hdue : timersNotDue s now = true) :
    Inv cfg { s with time := now } := by
  refine ⟨h.pairwise, h.boundedByLast, ?_, ?_, h.timerSep⟩
  · show s.lastProcessTime ≤ now
    have h1 := h.lastLeTime
    omega
  · intro t ht
    have ht2 : s.scheduled = some t := ht
    unfold timersNotDue at hdue
    rw [ht2] at hdue
    show now ≤ t.fireTime
    exact of_decide_eq_true hdue

theorem Inv_fireProc (cfg : Config) (hI : 0 ≤ cfg.minRequestInterval)
    {s : QMState} {tf : Int} (h : Inv cfg s)
    (hsch : s.scheduled = some { fireTime := tf, kind := TimerKind.processing }) :
    Inv cfg (fireProcessingStep s tf) := by
  have htf : s.time ≤ tf := h.timerTime _ hsch
  have hsep : s.lastProcessTime + cfg.minRequestInterval ≤ tf := h.timerSep _ hsch rfl
  have hlast : s.lastProcessTime ≤ tf := by omega
  have hs0 : Inv cfg { s with time := tf, scheduled := none } :=
    ⟨h.pairwise, h.boundedByLast, hlast,
      fun t ht => Option.noConfusion ht, fun t ht _ => Option.noConfusion ht⟩
  unfold fireProcessingStep processQueueStart
  split
  · exact hs0
  · split
    · exact hs0
    · refine ⟨?_, ?_, le_rfl, fun t ht => Option.noConfusion ht,
        fun t ht _ => Option.noConfusion ht⟩
      · refine List.Pairwise.cons ?_ h.pairwise
        intro e he
        have h1 := h.boundedByLast e he
        show e.1 + cfg.minRequestInterval ≤ tf
        omega
      · intro e he
        show e.1 ≤ tf
        rcases List.mem_cons.mp he with he1 | he2
        · rw [he1]
        · have h1 := h.boundedByLast e he2
          omega

theorem Inv_fireCons (cfg : Config) {s : QMState} {tf : Int} (h : Inv cfg s)
    (hsch : s.scheduled = some { fireTime := tf, kind := TimerKind.consistency }) :
    Inv cfg (fireConsistencyStep cfg s tf) := by
  have htf : s.time ≤ tf := h.timerTime _ hsch
  have hlast : s.lastProcessTime ≤ tf := by
    have h1 := h.lastLeTime
    omega
  have hs0 : Inv cfg { s with time := tf, scheduled := none } :=
    ⟨h.pairwise, h.boundedByLast, hlast,
      fun t ht => Option.noConfusion ht, fun t ht _ => Option.noConfusion ht⟩
  unfold fireConsistencyStep performConsistencyCheck
  exact (IT_foldl_enqueue cfg tf _ _ hs0 rfl).1

theorem Inv_completeSuccess (cfg : Config) (hC : 0 ≤ cfg.consistencyCheckInterval)
    {s : QMState} {now : Int} (req : QueuedRequest) (data : RespData) (sc : Int)
    (h : Inv cfg s) (htime : s.time ≤ now) (hdue : timersNotDue s now = true) :
    Inv cfg (completeSuccess cfg s now req data sc) := by
  have h0 := Inv_advanceTime cfg h htime hdue
  have h1 := IT_handleSuccess cfg req data sc h0
    (show ({ s with time := now } : QMState).time = now from rfl)
  have h2 : Inv cfg { (handleSuccess cfg { s with time := now } now req data sc).1 with
      processing := false, inFlight := none } :=
    ⟨h1.1.pairwise, h1.1.boundedByLast, h1.1.lastLeTime, h1.1.timerTime, h1.1.timerSep⟩
  exact (IT_finallyStep cfg hC h2 h1.2).1

theorem Inv_completeError (cfg : Config) (hC : 0 ≤ cfg.consistencyCheckInterval)
    {s : QMState} {now : Int} (req : QueuedRequest) (err : ApiError)
    (h : Inv cfg s) (htime : s.time ≤ now) (hdue : timersNotDue s now = true) :
    Inv cfg (completeError cfg s now req err) := by
  have h0 := Inv_advanceTime cfg h htime hdue
  have h1 := IT_handleError cfg req err h0
    (show ({ s with time := now } : QMState).time = now from rfl)
  have h2 : Inv cfg { (handleError cfg { s with time := now } now req err).1 with
      processing := false, inFlight := none } :=
    ⟨h1.1.pairwise, h1.1.boundedByLast, h1.1.lastLeTime, h1.1.timerTime, h1.1.timerSep⟩
  exact (IT_finallyStep cfg hC h2 h1.2).1

theorem reach_Inv (cfg : Config) (hI : 0 ≤ cfg.minRequestInterval)
    (hC : 0 ≤ cfg.consistencyCheckInterval) (s : QMState) (h : Reach cfg s) :
    Inv cfg s := by
  induction h with
  | init =>
    exact ⟨List.Pairwise.nil, by intro e he; simp [initState] at he, le_refl 0,
      by intro t ht; simp [initState] at ht, by intro t ht; simp [initState] at ht⟩
  | step hs hstep ih =>
    cases hstep with
    | enq now d op ps cb htime hdue =>
      exact Inv_enqueueCore cfg _ _ _ _ (Inv_advanceTime cfg ih htime hdue) rfl
    | fireProc tf hsch => exact Inv_fireProc cfg hI ih hsch
    | fireCons tf hsch => exact Inv_fireCons cfg ih hsch
    | doneOk now req data sc hin htime hdue hshape =>
      exact Inv_completeSuccess cfg hC req data sc ih htime hdue
    | doneErr now req err hin htime hdue =>
      exact Inv_completeError cfg hC req err ih htime hdue

/-- C2: in every reachable state, the recorded dispatch start times
(newest first) are pairwise at least minRequestInterval apart, across the
whole queue, whatever the interleaving of enqueues, timer firings and
in-flight completions. -/
theorem claim_C2 (cfg : Config) (s : QMState) (hreach : Reach cfg s)
    (hI : 0 ≤ cfg.minRequestInterval) (hC : 0 ≤ cfg.consistencyCheckInterval) :
    ∀ i j : Fin s.dispatches.length, i < j →
      (s.dispatches.get j).1 + cfg.minRequestInterval ≤ (s.dispatches.get i).1 := by
  have hinv := reach_Inv cfg hI hC s hreach
  have hp := List.pairwise_iff_get.mp hinv.pairwise
  intro i j hij
  exact hp i j hij

/-- Length of the dispatch log of the two-dispatch witness trace. -/
theorem w5_len : w5.dispatches.length = 2 := by decide

/-- The two-dispatch witness trace is reachable. -/
theorem w5_reach : Reach defaultConfig w5 :=
  Reach.step (Reach.step (Reach.step (Reach.step (Reach.step Reach.init
    (Step.enq initState 0 "dev2" Operation.getDeviceStatus [] none
      (by decide) (by decide)))
    (Step.fireProc w1 1000 (by decide)))
    (Step.doneOk w2 1100 w2req (RespData.devStatus activeDS) 200
      (by decide) (by decide) (by decide) (by decide)))
    (Step.enq w3 1100 "dev2" Operation.getDeviceStatus [] none
      (by decide) (by decide)))
    (Step.fireProc w4 2000 (by decide))

/-- Witness for C2 on a concrete trace with two dispatches (at 1000 and
2000, with minRequestInterval 1000): the second enqueue arrived at 1100
but its dispatch was delayed to 2000. -/
theorem claim_C2_witness :
    (w5.dispatches.get ⟨1, by rw [w5_len]; omega⟩).1 + defaultConfig.minRequestInterval
      ≤ (w5.dispatches.get ⟨0, by rw [w5_len]; omega⟩).1 :=
  claim_C2 defaultConfig w5 w5_reach (by decide) (by decide)
    ⟨0, by rw [w5_len]; omega⟩ ⟨1, by rw [w5_len]; omega⟩ (by decide)

end Sleepme
